import Mathlib

/-!
Verification development for the neural-ai-sdk repository: a shallow embedding
of the response-normalization, function-call extraction, multimodal payload
construction and image resolution logic of the provider adapters, together
with theorems settling the frozen claims about them.

Modelling conventions:
* JavaScript strings are modelled as Lean `String`/`List Char` (the inputs of
  interest are ASCII, so UTF-16 subtleties do not arise).
* JavaScript `JSON.parse` / `JSON.stringify` are modelled by `jsonParse` /
  `jsonStringify` below over the `Json` value type.  Numbers are kept as their
  source lexemes; no claim stringifies a numeric value, so the JS numeral
  canonicalisation is not needed.
* Effects (HTTP calls, the Node `URL` parser, the filesystem) are passed in
  explicitly through an `Env` record; `async` functions that can throw are
  modelled with `Except String`.
* Braces inside string literals are written with `\x7b` / `\x7d` escapes and
  apostrophes with `\x27`.
-/

/-- The `\x7b` character, i.e. an opening curly brace. -/
def lbrace : Char := Char.ofNat 123

/-- The `\x7d` character, i.e. a closing curly brace. -/
def rbrace : Char := Char.ofNat 125

/-- The backtick character. -/
def btick : Char := Char.ofNat 96

/-- The ASCII whitespace characters matched by the JavaScript `\s` class
(the Unicode space characters also matched by `\s` do not occur in any input
considered here). -/
def jsWsB (c : Char) : Bool :=
  c = ' ' || c = '\t' || c = '\n' || c = '\r' || c = Char.ofNat 11 || c = Char.ofNat 12

/-- Whitespace accepted by the JSON grammar (`JSON.parse`). -/
def jsonWsB (c : Char) : Bool :=
  c = ' ' || c = '\t' || c = '\n' || c = '\r'

/-- JavaScript `String.prototype.trim` on a character list. -/
def jsTrim (l : List Char) : List Char :=
  ((l.dropWhile jsWsB).reverse.dropWhile jsWsB).reverse

/-- JavaScript `String.prototype.trim`. -/
def jsTrimStr (s : String) : String :=
  String.mk (jsTrim s.data)

/-- JSON values, as produced by `JSON.parse`.  Numbers keep their source
lexeme; object fields keep insertion order (later duplicate keys overwrite the
value at the first occurrence, as in JavaScript). -/
inductive Json where
  | jnull : Json
  | jbool : Bool → Json
  | jnum : String → Json
  | jstr : String → Json
  | jarr : List Json → Json
  | jobj : List (String × Json) → Json

/-- Insert a key/value pair into an object, JavaScript style: an existing key
keeps its position but receives the new value, a new key is appended. -/
def jsObjInsert (k : String) (v : Json) : List (String × Json) → List (String × Json)
  | [] => [(k, v)]
  | (k', v') :: rest =>
    if k' = k then (k', v) :: rest else (k', v') :: jsObjInsert k v rest

/-- Property lookup on a parsed object (`obj[k]`); `none` plays `undefined`. -/
def jsObjGet (k : String) : List (String × Json) → Option Json
  | [] => none
  | (k', v) :: rest => if k' = k then some v else jsObjGet k rest

/-- Whether a number lexeme denotes zero (sign and exponent are irrelevant;
zero iff every mantissa digit is `0`). -/
def jsonNumIsZero (lit : String) : Bool :=
  ((lit.data.takeWhile (fun c => c ≠ 'e' && c ≠ 'E')).filter Char.isDigit).all (· = '0')

/-- JavaScript truthiness of a value. -/
def jsTruthy : Json → Bool
  | .jnull => false
  | .jbool b => b
  | .jnum lit => !jsonNumIsZero lit
  | .jstr s => s ≠ ""
  | .jarr _ => true
  | .jobj _ => true

/-- Numeric value of a hexadecimal digit. -/
def hexVal (c : Char) : Option Nat :=
  if '0' ≤ c ∧ c ≤ '9' then some (c.toNat - '0'.toNat)
  else if 'a' ≤ c ∧ c ≤ 'f' then some (c.toNat - 'a'.toNat + 10)
  else if 'A' ≤ c ∧ c ≤ 'F' then some (c.toNat - 'A'.toNat + 10)
  else none

/-- Parse the body of a JSON string literal (the opening quote already
consumed), returning the decoded characters and the rest of the input. -/
def parseJsonStringBody : List Char → Option (List Char × List Char)
  | [] => none
  | '"' :: rest => some ([], rest)
  | '\\' :: esc =>
    match esc with
    | '"' :: r => (parseJsonStringBody r).map (fun p => ('"' :: p.1, p.2))
    | '\\' :: r => (parseJsonStringBody r).map (fun p => ('\\' :: p.1, p.2))
    | '/' :: r => (parseJsonStringBody r).map (fun p => ('/' :: p.1, p.2))
    | 'b' :: r => (parseJsonStringBody r).map (fun p => (Char.ofNat 8 :: p.1, p.2))
    | 'f' :: r => (parseJsonStringBody r).map (fun p => (Char.ofNat 12 :: p.1, p.2))
    | 'n' :: r => (parseJsonStringBody r).map (fun p => ('\n' :: p.1, p.2))
    | 'r' :: r => (parseJsonStringBody r).map (fun p => ('\r' :: p.1, p.2))
    | 't' :: r => (parseJsonStringBody r).map (fun p => ('\t' :: p.1, p.2))
    | 'u' :: a :: b :: c :: d :: r =>
      match hexVal a, hexVal b, hexVal c, hexVal d with
      | some x, some y, some z, some w =>
        (parseJsonStringBody r).map
          (fun p => (Char.ofNat (((x * 16 + y) * 16 + z) * 16 + w) :: p.1, p.2))
      | _, _, _, _ => none
    | _ => none
  | c :: rest =>
    if c.toNat < 32 then none
    else (parseJsonStringBody rest).map (fun p => (c :: p.1, p.2))

/-- Parse a JSON number (the JSON grammar: optional minus, integer part with
no leading zeros, optional fraction, optional exponent); returns the lexeme. -/
def parseJsonNumber (l : List Char) : Option (List Char × List Char) :=
  let (sign, l1) :=
    match l with
    | '-' :: r => (['-'], r)
    | _ => (([] : List Char), l)
  let intPart : Option (List Char × List Char) :=
    match l1 with
    | '0' :: r => some (['0'], r)
    | c :: r =>
      if '1' ≤ c ∧ c ≤ '9' then
        some (c :: r.takeWhile Char.isDigit, r.dropWhile Char.isDigit)
      else none
    | [] => none
  match intPart with
  | none => none
  | some (ip, l2) =>
    let (fp, l3) :=
      match l2 with
      | '.' :: r =>
        let ds := r.takeWhile Char.isDigit
        if ds = [] then (([] : List Char), l2)
        else ('.' :: ds, r.dropWhile Char.isDigit)
      | _ => (([] : List Char), l2)
    -- a fraction dot with no digits makes the whole number token end before
    -- the dot, so the dot will fail to parse at the caller; JSON.parse also
    -- rejects it, and our top level demands the rest be consumable, matching.
    let (ep, l4) :=
      match l3 with
      | e :: r =>
        if e = 'e' ∨ e = 'E' then
          let (sg, r1) :=
            match r with
            | '+' :: rr => (['+'], rr)
            | '-' :: rr => (['-'], rr)
            | _ => (([] : List Char), r)
          let ds := r1.takeWhile Char.isDigit
          if ds = [] then (([] : List Char), l3)
          else (e :: (sg ++ ds), r1.dropWhile Char.isDigit)
        else (([] : List Char), l3)
      | [] => (([] : List Char), l3)
    some (sign ++ ip ++ fp ++ ep, l4)

mutual

/-- Parse one JSON value (leading whitespace allowed), fuel-bounded. -/
def parseJsonVal : Nat → List Char → Option (Json × List Char)
  | 0, _ => none
  | Nat.succ fuel, l =>
    match l.dropWhile jsonWsB with
    | 'n' :: 'u' :: 'l' :: 'l' :: r => some (.jnull, r)
    | 't' :: 'r' :: 'u' :: 'e' :: r => some (.jbool true, r)
    | 'f' :: 'a' :: 'l' :: 's' :: 'e' :: r => some (.jbool false, r)
    | '"' :: r => (parseJsonStringBody r).map (fun p => (.jstr (String.mk p.1), p.2))
    | '[' :: r =>
      match r.dropWhile jsonWsB with
      | ']' :: r2 => some (.jarr [], r2)
      | _ => parseJsonArrItems fuel r []
    | c :: r =>
      if c = lbrace then
        match r.dropWhile jsonWsB with
        | c2 :: r2 => if c2 = rbrace then some (.jobj [], r2) else parseJsonObjItems fuel r []
        | [] => none
      else if c = '-' ∨ c.isDigit then
        (parseJsonNumber (c :: r)).map (fun p => (.jnum (String.mk p.1), p.2))
      else none
    | [] => none

/-- Parse the items of a JSON array (after `[`), fuel-bounded. -/
def parseJsonArrItems : Nat → List Char → List Json → Option (Json × List Char)
  | 0, _, _ => none
  | Nat.succ fuel, l, acc =>
    match parseJsonVal fuel l with
    | none => none
    | some (v, r) =>
      match r.dropWhile jsonWsB with
      | ',' :: r2 => parseJsonArrItems fuel r2 (acc ++ [v])
      | ']' :: r2 => some (.jarr (acc ++ [v]), r2)
      | _ => none

/-- Parse the members of a JSON object (after the opening brace), fuel-bounded. -/
def parseJsonObjItems : Nat → List Char → List (String × Json) → Option (Json × List Char)
  | 0, _, _ => none
  | Nat.succ fuel, l, acc =>
    match l.dropWhile jsonWsB with
    | '"' :: r =>
      match parseJsonStringBody r with
      | none => none
      | some (k, r1) =>
        match r1.dropWhile jsonWsB with
        | ':' :: r2 =>
          match parseJsonVal fuel r2 with
          | none => none
          | some (v, r3) =>
            match r3.dropWhile jsonWsB with
            | ',' :: r4 => parseJsonObjItems fuel r4 (jsObjInsert (String.mk k) v acc)
            | c :: r4 =>
              if c = rbrace then some (.jobj (jsObjInsert (String.mk k) v acc), r4)
              else none
            | [] => none
        | _ => none
    | _ => none

end

/-- JavaScript `JSON.parse`: `none` models a thrown `SyntaxError`.  The fuel
`2 * length + 8` dominates the recursion depth (each nesting level consumes at
least one input character). -/
def jsonParse (s : String) : Option Json :=
  match parseJsonVal (2 * s.data.length + 8) s.data with
  | some (v, r) => if r.dropWhile jsonWsB = [] then some v else none
  | none => none

/-- Escape one character as inside a `JSON.stringify` string literal. -/
def jsonEscChar (c : Char) : List Char :=
  if c = '"' then ['\\', '"']
  else if c = '\\' then ['\\', '\\']
  else if c.toNat < 32 then
    if c = Char.ofNat 8 then ['\\', 'b']
    else if c = '\t' then ['\\', 't']
    else if c = '\n' then ['\\', 'n']
    else if c = Char.ofNat 12 then ['\\', 'f']
    else if c = '\r' then ['\\', 'r']
    else
      let hx := fun (n : Nat) => if n < 10 then Char.ofNat ('0'.toNat + n)
                                 else Char.ofNat ('a'.toNat + (n - 10))
      ['\\', 'u', '0', '0', hx (c.toNat / 16), hx (c.toNat % 16)]
  else [c]

/-- A `JSON.stringify` string literal. -/
def jsonQuote (s : String) : List Char :=
  '"' :: (s.data.flatMap jsonEscChar) ++ ['"']

mutual

/-- Compact `JSON.stringify`, fuel-bounded (any fuel at least the value depth
is adequate; `jsonStringify` below supplies `sizeOf`). -/
def stringifyVal : Nat → Json → List Char
  | 0, _ => []
  | Nat.succ _, .jnull => ['n', 'u', 'l', 'l']
  | Nat.succ _, .jbool true => ['t', 'r', 'u', 'e']
  | Nat.succ _, .jbool false => ['f', 'a', 'l', 's', 'e']
  | Nat.succ _, .jnum lit => lit.data
  | Nat.succ _, .jstr s => jsonQuote s
  | Nat.succ fuel, .jarr xs => '[' :: stringifyArr fuel xs ++ [']']
  | Nat.succ fuel, .jobj kvs => lbrace :: stringifyObj fuel kvs ++ [rbrace]

/-- Comma-separated array items of compact `JSON.stringify`. -/
def stringifyArr : Nat → List Json → List Char
  | 0, _ => []
  | Nat.succ _, [] => []
  | Nat.succ fuel, [x] => stringifyVal fuel x
  | Nat.succ fuel, x :: rest => stringifyVal fuel x ++ ',' :: stringifyArr fuel rest

/-- Comma-separated object members of compact `JSON.stringify`. -/
def stringifyObj : Nat → List (String × Json) → List Char
  | 0, _ => []
  | Nat.succ _, [] => []
  | Nat.succ fuel, [(k, v)] => jsonQuote k ++ ':' :: stringifyVal fuel v
  | Nat.succ fuel, (k, v) :: rest =>
    jsonQuote k ++ ':' :: stringifyVal fuel v ++ ',' :: stringifyObj fuel rest

end

/-- Compact `JSON.stringify` with explicit fuel.  Since every call in the
mutual block above decreases the fuel by one, any fuel exceeding the total
node-plus-list-step count of the value is adequate; the extractors below pass
a fuel derived from the length of the string the value was parsed from, which
dominates that count. -/
def jsonStringifyF (fuel : Nat) (j : Json) : String :=
  String.mk (stringifyVal fuel j)

mutual

/-- A fuel bound adequate for `stringifyVal`/`stringifyIndVal` on the value. -/
def jsonSize : Json → Nat
  | .jnull => 1
  | .jbool _ => 1
  | .jnum _ => 1
  | .jstr _ => 1
  | .jarr xs => 1 + jsonSizeList xs
  | .jobj kvs => 1 + jsonSizeObj kvs

/-- `jsonSize` accumulated over array items. -/
def jsonSizeList : List Json → Nat
  | [] => 1
  | x :: rest => 1 + jsonSize x + jsonSizeList rest

/-- `jsonSize` accumulated over object members. -/
def jsonSizeObj : List (String × Json) → Nat
  | [] => 1
  | (_, v) :: rest => 1 + jsonSize v + jsonSizeObj rest

end

/-- JavaScript `JSON.stringify` (compact form, no indent argument). -/
def jsonStringify (j : Json) : String :=
  jsonStringifyF (jsonSize j + 2) j

/-- Indentation padding used by `JSON.stringify(x, null, n)`. -/
def jsonPad (n : Nat) : List Char := List.replicate n ' '

mutual

/-- Pretty `JSON.stringify(x, null, 2)` at a given indentation depth,
fuel-bounded like `stringifyVal`. -/
def stringifyIndVal : Nat → Nat → Json → List Char
  | 0, _, _ => []
  | Nat.succ _, _, .jnull => ['n', 'u', 'l', 'l']
  | Nat.succ _, _, .jbool true => ['t', 'r', 'u', 'e']
  | Nat.succ _, _, .jbool false => ['f', 'a', 'l', 's', 'e']
  | Nat.succ _, _, .jnum lit => lit.data
  | Nat.succ _, _, .jstr s => jsonQuote s
  | Nat.succ fuel, depth, .jarr xs =>
    match xs with
    | [] => ['[', ']']
    | _ =>
      '[' :: '\n' :: stringifyIndArr fuel (depth + 2) xs ++
        '\n' :: jsonPad depth ++ [']']
  | Nat.succ fuel, depth, .jobj kvs =>
    match kvs with
    | [] => [lbrace, rbrace]
    | _ =>
      lbrace :: '\n' :: stringifyIndObj fuel (depth + 2) kvs ++
        '\n' :: jsonPad depth ++ [rbrace]

/-- Items of a pretty-printed array, one per line. -/
def stringifyIndArr : Nat → Nat → List Json → List Char
  | 0, _, _ => []
  | Nat.succ _, _, [] => []
  | Nat.succ fuel, depth, [x] => jsonPad depth ++ stringifyIndVal fuel depth x
  | Nat.succ fuel, depth, x :: rest =>
    jsonPad depth ++ stringifyIndVal fuel depth x ++
      ',' :: '\n' :: stringifyIndArr fuel depth rest

/-- Members of a pretty-printed object, one per line. -/
def stringifyIndObj : Nat → Nat → List (String × Json) → List Char
  | 0, _, _ => []
  | Nat.succ _, _, [] => []
  | Nat.succ fuel, depth, [(k, v)] =>
    jsonPad depth ++ jsonQuote k ++ ':' :: ' ' :: stringifyIndVal fuel depth v
  | Nat.succ fuel, depth, (k, v) :: rest =>
    jsonPad depth ++ jsonQuote k ++ ':' :: ' ' :: stringifyIndVal fuel depth v ++
      ',' :: '\n' :: stringifyIndObj fuel depth rest

end

/-- JavaScript `JSON.stringify(x, null, 2)`. -/
def jsonStringify2 (j : Json) : String :=
  String.mk (stringifyIndVal (jsonSize j + 2) 0 j)

/-- The base64 alphabet. -/
def base64Chars : List Char :=
  "ABCDEFGHIJKLMNOPQRSTUVWXYZabcdefghijklmnopqrstuvwxyz0123456789+/".data

/-- Character at an index of the base64 alphabet. -/
def b64c (n : Nat) : Char := (base64Chars.getD n 'A')

/-- Base64 encoding of a byte list (`Buffer.prototype.toString("base64")`). -/
def base64Encode : List Nat → String
  | [] => ""
  | [b0] =>
    String.mk [b64c (b0 / 4 % 64), b64c (b0 % 4 * 16), '=', '=']
  | [b0, b1] =>
    String.mk [b64c (b0 / 4 % 64), b64c ((b0 % 4 * 16 + b1 / 16) % 64),
               b64c (b1 % 16 * 4), '=']
  | b0 :: b1 :: b2 :: rest =>
    String.mk [b64c (b0 / 4 % 64), b64c ((b0 % 4 * 16 + b1 / 16) % 64),
               b64c ((b1 % 16 * 4 + b2 / 64) % 64), b64c (b2 % 64)] ++
      base64Encode rest

/-! ## Data model (src/types.ts) and the effect environment -/

/-- An image source: a raw binary `Buffer` or a string (URL or file path). -/
inductive ImageSource where
  | buffer : List Nat → ImageSource
  | str : String → ImageSource

/-- A content part of a multimodal request (types.ts `Content`). -/
inductive Content where
  | text : String → Content
  | image : ImageSource → Content

/-- A function definition (types.ts `FunctionDefinition`); the JSON-schema
parameter spec is kept as a `Json` value. -/
structure FunctionDefinition where
  name : String
  description : String
  parameters : Json

/-- JSON serialization of a function definition, field order as declared. -/
def fdToJson (fd : FunctionDefinition) : Json :=
  Json.jobj [("name", Json.jstr fd.name), ("description", Json.jstr fd.description),
             ("parameters", fd.parameters)]

/-- The `functionCall` directive of a request. -/
inductive FunctionCallDirective where
  | auto : FunctionCallDirective
  | nonedir : FunctionCallDirective
  | forced : String → FunctionCallDirective

/-- Model configuration (types.ts `AIModelConfig`); numeric options are exact
rationals / naturals since the claims only pass values through. -/
structure AIModelConfig where
  apiKey : Option String
  baseURL : Option String
  model : Option String
  temperature : Option Rat
  maxTokens : Option Nat
  topP : Option Rat
deriving DecidableEq

/-- The all-absent configuration. -/
def cfgNone : AIModelConfig := ⟨none, none, none, none, none, none⟩

/-- A normalized request (types.ts `AIModelRequest`). -/
structure AIModelRequest where
  prompt : String
  systemPrompt : Option String
  options : Option AIModelConfig
  content : Option (List Content)
  image : Option ImageSource
  functions : Option (List FunctionDefinition)
  functionCall : Option FunctionCallDirective

/-- A text-only request with the given prompt. -/
def plainRequest (p : String) : AIModelRequest :=
  ⟨p, none, none, none, none, none, none⟩

/-- An extracted function call (types.ts `FunctionCall`): the arguments are a
JSON-encoded string, not a parsed object. -/
structure FunctionCallR where
  name : String
  arguments : String
deriving DecidableEq

/-- JavaScript truthiness of an optional string (absent and `""` are falsy). -/
def strTruthy : Option String → Bool
  | some s => s ≠ ""
  | none => false

/-- JavaScript truthiness of an image source: a `Buffer` object is always
truthy, a string is truthy iff nonempty. -/
def imgSrcTruthy : ImageSource → Bool
  | .buffer _ => true
  | .str s => s ≠ ""

/-- Truthiness of the optional `request.image` field. -/
def imgTruthy : Option ImageSource → Bool
  | some src => imgSrcTruthy src
  | none => false

/-- `request.functions && request.functions.length > 0`. -/
def fnsPresent : Option (List FunctionDefinition) → Bool
  | some fns => fns.length > 0
  | none => false

/-- `request.content && request.content.some(item => item.type === "image")`. -/
def contentHasImage : Option (List Content) → Bool
  | some items => items.any (fun it => match it with | .image _ => true | .text _ => false)
  | none => false

/-- `o || d` for an optional string (empty strings are falsy). -/
def strOr (o : Option String) (d : String) : String :=
  match o with
  | some s => if s ≠ "" then s else d
  | none => d

/-- `o || d` for an optional rational (`0` is falsy). -/
def ratOr (o : Option Rat) (d : Rat) : Rat :=
  match o with
  | some x => if x ≠ 0 then x else d
  | none => d

/-- `o || d` for an optional natural (`0` is falsy). -/
def natOr (o : Option Nat) (d : Nat) : Nat :=
  match o with
  | some n => if n ≠ 0 then n else d
  | none => d

/-- The result of the Node `URL` constructor, restricted to the only field
the code reads. -/
structure ParsedURL where
  protocol : String

/-- The external world as seen by the image resolver: the platform URL
parser, the HTTP client (`axios.get` with `arraybuffer`), and the filesystem
(`fs.existsSync`/`statSync().isFile()` and `fs.readFileSync`).  Errors carry
the underlying `error.message`. -/
structure Env where
  parseURL : String → Option ParsedURL
  fetchImage : String → Except String (List Nat)
  fileIsRegular : String → Bool
  readFile : String → Except String (List Nat)

/-- An environment in which every external lookup fails. -/
def envEmpty : Env :=
  ⟨fun _ => none, fun _ => Except.error (""), fun _ => false, fun _ => Except.error ("")⟩

/-! ## Image source resolver (src/utils/image-utils.ts) -/

/-- `isUrl`: the string parses as a URL with an `http:` or `https:` protocol. -/
def isUrl (env : Env) (s : String) : Bool :=
  match env.parseURL s with
  | some u => u.protocol = "http:" || u.protocol = "https:"
  | none => false

/-- `isFilePath`: the path exists and is a regular file (exceptions from the
filesystem probe yield `false`). -/
def isFilePath (env : Env) (s : String) : Bool :=
  env.fileIsRegular s

/-- `imageToBase64`: converts an image to base64 from a `Buffer`, a URL, or a
file path, in that priority order; any other input is an input-validation
failure, and fetch/read failures are wrapped keeping the original message. -/
def imageToBase64 (env : Env) (source : ImageSource) : Except String String :=
  match source with
  | .buffer bytes => Except.ok (base64Encode bytes)
  | .str s =>
    if isUrl env s then
      match env.fetchImage s with
      | Except.ok bytes => Except.ok (base64Encode bytes)
      | Except.error m => Except.error ("Failed to fetch image from URL: " ++ m)
    else if isFilePath env s then
      match env.readFile s with
      | Except.ok bytes => Except.ok (base64Encode bytes)
      | Except.error m => Except.error ("Failed to read image file: " ++ m)
    else Except.error ("Invalid image source. Must be URL, file path, or Buffer")

/-- Node `path.basename` on characters (the part after the last `/`). -/
def basenameChars (l : List Char) : List Char :=
  (l.reverse.takeWhile (· ≠ '/')).reverse

/-- Node `path.extname` on characters: the suffix from the last dot of the
basename, empty when there is no dot or the only dot is the leading one. -/
def extnameChars (l : List Char) : List Char :=
  let b := basenameChars l
  let afterDot := b.reverse.takeWhile (· ≠ '.')
  if afterDot.length = b.length then []
  else if afterDot.length + 1 = b.length ∧ b.head? = some '.' then []
  else '.' :: afterDot.reverse

/-- `getMimeType`: MIME type from the (case-insensitive) file extension,
defaulting to `image/jpeg`. -/
def getMimeType (filePath : String) : String :=
  if filePath = "" then "image/jpeg"
  else
    let ext := String.mk ((extnameChars filePath.data).map Char.toLower)
    if ext = ".jpg" ∨ ext = ".jpeg" then "image/jpeg"
    else if ext = ".png" then "image/png"
    else if ext = ".gif" then "image/gif"
    else if ext = ".webp" then "image/webp"
    else if ext = ".bmp" then "image/bmp"
    else if ext = ".svg" then "image/svg+xml"
    else "image/jpeg"

/-- `processImage`: base64 payload plus MIME type (`image/jpeg` for buffers,
extension-derived for strings). -/
def processImage (env : Env) (source : ImageSource) : Except String (String × String) :=
  match imageToBase64 env source with
  | Except.error e => Except.error e
  | Except.ok b64 =>
    Except.ok (b64, match source with
                    | .str s => getMimeType s
                    | .buffer _ => "image/jpeg")

/-! ## Regex matchers underlying the function-call text extractors

Each JavaScript regex used by the extractors is translated into a
deterministic matcher with the same semantics on the pattern: leftmost match,
greedy character classes, and lazy `[\s\S]*?` groups that stop at the first
position where the rest of the pattern matches. -/

/-- Match a literal character sequence at the head of the input. -/
def expectChars : List Char → List Char → Option (List Char)
  | [], l => some l
  | p :: ps, c :: cs => if c = p then expectChars ps cs else none
  | _ :: _, [] => none

/-- Matcher for
`\x7b[\s\n]*"name"[\s\n]*:[\s\n]*"([^"]+)"[\s\n]*,[\s\n]*"arguments"[\s\n]*:[\s\n]*([\s\S]*?)\x7d`
anchored at the head: returns the captured name, the captured arguments span
(which, being a lazy group followed by a literal closing brace, never contains
a closing brace), and the rest of the input after the match. -/
def matchJsonCallAt (l : List Char) : Option (String × List Char × List Char) :=
  match l with
  | [] => none
  | c :: l0 =>
    if c = lbrace then
      match expectChars ("\"name\"".data) (l0.dropWhile jsWsB) with
      | none => none
      | some l1 =>
        match expectChars [':'] (l1.dropWhile jsWsB) with
        | none => none
        | some l2 =>
          match l2.dropWhile jsWsB with
          | '"' :: l3 =>
            let nm := l3.takeWhile (· ≠ '"')
            if nm = [] then none
            else
              match expectChars ['"'] (l3.drop nm.length) with
              | none => none
              | some l4 =>
                match expectChars [','] (l4.dropWhile jsWsB) with
                | none => none
                | some l5 =>
                  match expectChars ("\"arguments\"".data) (l5.dropWhile jsWsB) with
                  | none => none
                  | some l6 =>
                    match expectChars [':'] (l6.dropWhile jsWsB) with
                    | none => none
                    | some l7 =>
                      let l8 := l7.dropWhile jsWsB
                      let span := l8.takeWhile (· ≠ rbrace)
                      match expectChars [rbrace] (l8.drop span.length) with
                      | some rest => some (String.mk nm, span, rest)
                      | none => none
          | _ => none
    else none

/-- Global scan with the pattern of `matchJsonCallAt` (`g`-flag `exec` loop):
on failure advance one character, on success continue after the match. -/
def scanJsonCallsAux : Nat → List Char → List (String × List Char)
  | 0, _ => []
  | _, [] => []
  | Nat.succ fuel, c :: cs =>
    match matchJsonCallAt (c :: cs) with
    | some (n, a, rest) => (n, a) :: scanJsonCallsAux fuel rest
    | none => scanJsonCallsAux fuel cs

/-- All matches of the function-call JSON pattern in the input. -/
def scanJsonCalls (l : List Char) : List (String × List Char) :=
  scanJsonCallsAux l.length l

/-- Resolve a lazy `[\s\S]*?` group terminated by a closing brace whose
continuation must also match: successive closing-brace candidates are tried in
order, a rejected candidate becoming part of the group. Returns the group
content (without the closing brace) and the input after the continuation. -/
def lazyToRbrace (cont : List Char → Option (List Char)) : List Char → Option (List Char × List Char)
  | [] => none
  | c :: cs =>
    if c = rbrace then
      match cont cs with
      | some rest => some ([], rest)
      | none => (lazyToRbrace cont cs).map (fun p => (c :: p.1, p.2))
    else (lazyToRbrace cont cs).map (fun p => (c :: p.1, p.2))

/-- The character class `[a-zA-Z0-9_]`. -/
def identCharB (c : Char) : Bool :=
  ('a' ≤ c && c ≤ 'z') || ('A' ≤ c && c ≤ 'Z') || c.isDigit || c = '_'

/-- Matcher for `([a-zA-Z0-9_]+)\s*\(\s*(\x7b[\s\S]*?\x7d)\s*\)` anchored at
the head: returns the identifier, the braced group (braces included) and the
rest. -/
def matchFnCallAt (l : List Char) : Option (String × List Char × List Char) :=
  let ident := l.takeWhile identCharB
  if ident = [] then none
  else
    match (l.drop ident.length).dropWhile jsWsB with
    | '(' :: l2 =>
      match l2.dropWhile jsWsB with
      | c :: l4 =>
        if c = lbrace then
          match lazyToRbrace (fun r => expectChars [')'] (r.dropWhile jsWsB)) l4 with
          | some (body, rest) => some (String.mk ident, lbrace :: body ++ [rbrace], rest)
          | none => none
        else none
      | [] => none
    | _ => none

/-- Global scan with the pattern of `matchFnCallAt`. -/
def scanFnCallsAux : Nat → List Char → List (String × List Char)
  | 0, _ => []
  | _, [] => []
  | Nat.succ fuel, c :: cs =>
    match matchFnCallAt (c :: cs) with
    | some (n, a, rest) => (n, a) :: scanFnCallsAux fuel rest
    | none => scanFnCallsAux fuel cs

/-- All matches of the call-syntax pattern in the input. -/
def scanFnCalls (l : List Char) : List (String × List Char) :=
  scanFnCallsAux l.length l

/-- Continuation after the braced group of the markdown pattern: `\s*\n`
followed by three backticks, i.e. a whitespace run ending in a newline with
the fence immediately after it. -/
def mdCont (r : List Char) : Option (List Char) :=
  let w := r.takeWhile jsWsB
  if w.getLast? = some '\n' then
    expectChars [btick, btick, btick] (r.dropWhile jsWsB)
  else none

/-- Matcher for the fenced-code-block pattern
(three backticks, optional `json` tag, `\s*\n\s*`, a lazily-braced group,
`\s*\n`, three backticks) anchored at the head: returns the braced group and
the rest. -/
def matchMarkdownAt (l : List Char) : Option (List Char × List Char) :=
  match expectChars [btick, btick, btick] l with
  | none => none
  | some l1 =>
    let l2 := match expectChars ['j', 's', 'o', 'n'] l1 with
              | some r => r
              | none => l1
    let ws := l2.takeWhile jsWsB
    if ws.contains '\n' then
      match l2.dropWhile jsWsB with
      | c :: l4 =>
        if c = lbrace then
          match lazyToRbrace mdCont l4 with
          | some (body, rest) => some (lbrace :: body ++ [rbrace], rest)
          | none => none
        else none
      | [] => none
    else none

/-- Global scan with the markdown pattern. -/
def scanMarkdownAux : Nat → List Char → List (List Char)
  | 0, _ => []
  | _, [] => []
  | Nat.succ fuel, c :: cs =>
    match matchMarkdownAt (c :: cs) with
    | some (g, rest) => g :: scanMarkdownAux fuel rest
    | none => scanMarkdownAux fuel cs

/-- All matches of the markdown pattern in the input. -/
def scanMarkdown (l : List Char) : List (List Char) :=
  scanMarkdownAux l.length l

/-- Matcher for the greedy pattern `\x7b[\s\S]*\x7d` under `.match`: the span
from the first opening brace through the last closing brace after it, if any. -/
def firstBraceSpan (l : List Char) : Option (List Char) :=
  match l.dropWhile (· ≠ lbrace) with
  | [] => none
  | c :: rest =>
    match rest.reverse.dropWhile (· ≠ rbrace) with
    | [] => none
    | r => some (c :: r.reverse)

/-! ## Ollama adapter: JSON repair and function-call extraction
(src/models/ollama-model.ts) -/

namespace Ollama

/-- `tryFixIncompleteJSON`: returns already-valid JSON unchanged; otherwise,
when there are more opening than closing braces, appends the missing closing
braces; with `returnAsString` the appended string is returned without
re-validation, otherwise it is returned only if it now parses, the original
text being returned in every remaining case. -/
def tryFixIncompleteJSON (returnAsString : Bool) (text : String) : String :=
  if (jsonParse text).isSome then text
  else
    let openBraces := text.data.count lbrace
    let closeBraces := text.data.count rbrace
    if openBraces > closeBraces then
      let fixedText := text ++ String.mk (List.replicate (openBraces - closeBraces) rbrace)
      if returnAsString then fixedText
      else if (jsonParse fixedText).isSome then fixedText
      else text
    else text

/-- The arguments produced for one match of extraction pattern 1: repair the
captured span, re-serialize it when it parses, and otherwise return the
brace-appended span itself (the body of the `jsonMatches.map` callback; the
enclosing `catch` that would yield `"\x7b\x7d"` is unreachable since nothing
in the `try` throws). -/
def ollamaArgsOf (argsRaw : String) : String :=
  let argsText := tryFixIncompleteJSON false argsRaw
  match jsonParse argsText with
  | some v => jsonStringifyF (4 * argsText.data.length + 16) v
  | none => tryFixIncompleteJSON true argsText

/-- Read a quoted `[^"]*` group: the characters before the next quote. -/
def quotedSpan (l : List Char) : Option (List Char × List Char) :=
  match l with
  | '"' :: r =>
    let v := r.takeWhile (· ≠ '"')
    match expectChars ['"'] (r.drop v.length) with
    | some rest => some (v, rest)
    | none => none
  | _ => none

/-- Matcher, anchored at the head, for the forced-`getWeather` pattern
`\x7b[\s\n]*"location"[\s\n]*:[\s\n]*"([^"]*)"(?:[\s\n]*,[\s\n]*"unit"[\s\n]*:[\s\n]*"([^"]*)"|)(.*?)\x7d`
with the `s` flag: returns the location and, when the non-empty alternative
matched, the unit. -/
def matchWeatherAt (l : List Char) : Option (String × Option String) :=
  match l with
  | [] => none
  | c :: l0 =>
    if c = lbrace then
      match expectChars ("\"location\"".data) (l0.dropWhile jsWsB) with
      | none => none
      | some l1 =>
        match expectChars [':'] (l1.dropWhile jsWsB) with
        | none => none
        | some l2 =>
          match quotedSpan (l2.dropWhile jsWsB) with
          | none => none
          | some (loc, l4) =>
            let withUnit : Option (String × List Char) :=
              match expectChars [','] (l4.dropWhile jsWsB) with
              | none => none
              | some m1 =>
                match expectChars ("\"unit\"".data) (m1.dropWhile jsWsB) with
                | none => none
                | some m2 =>
                  match expectChars [':'] (m2.dropWhile jsWsB) with
                  | none => none
                  | some m3 =>
                    match quotedSpan (m3.dropWhile jsWsB) with
                    | some (u, m4) => some (String.mk u, m4)
                    | none => none
            match withUnit with
            | some (u, m4) =>
              if m4.contains rbrace then some (String.mk loc, some u)
              else if l4.contains rbrace then some (String.mk loc, none)
              else none
            | none =>
              if l4.contains rbrace then some (String.mk loc, none) else none
    else none

/-- First match of the forced-`getWeather` pattern (`.match`, not global). -/
def scanWeather : List Char → Option (String × Option String)
  | [] => none
  | c :: cs =>
    match matchWeatherAt (c :: cs) with
    | some r => some r
    | none => scanWeather cs

/-- Decimal value of a `\d+` capture (`parseInt`). -/
def digitsToNat (l : List Char) : Nat :=
  l.foldl (fun acc c => acc * 10 + (c.toNat - 48)) 0

/-- Matcher, anchored at the head, for the forced-`calculator` pattern
`\x7b[\s\n]*"operation"[\s\n]*:[\s\n]*"([^"]*)"[\s\n]*,[\s\n]*"a"[\s\n]*:[\s\n]*(\d+)[\s\n]*,[\s\n]*"b"[\s\n]*:[\s\n]*(\d+)[\s\S]*?\x7d`. -/
def matchCalculatorAt (l : List Char) : Option (String × Nat × Nat) :=
  match l with
  | [] => none
  | c :: l0 =>
    if c = lbrace then
      match expectChars ("\"operation\"".data) (l0.dropWhile jsWsB) with
      | none => none
      | some l1 =>
        match expectChars [':'] (l1.dropWhile jsWsB) with
        | none => none
        | some l2 =>
          match quotedSpan (l2.dropWhile jsWsB) with
          | none => none
          | some (op, l3) =>
            match expectChars [','] (l3.dropWhile jsWsB) with
            | none => none
            | some l4 =>
              match expectChars ("\"a\"".data) (l4.dropWhile jsWsB) with
              | none => none
              | some l5 =>
                match expectChars [':'] (l5.dropWhile jsWsB) with
                | none => none
                | some l6 =>
                  let l7 := l6.dropWhile jsWsB
                  let ad := l7.takeWhile Char.isDigit
                  if ad = [] then none
                  else
                    match expectChars [','] ((l7.drop ad.length).dropWhile jsWsB) with
                    | none => none
                    | some l8 =>
                      match expectChars ("\"b\"".data) (l8.dropWhile jsWsB) with
                      | none => none
                      | some l9 =>
                        match expectChars [':'] (l9.dropWhile jsWsB) with
                        | none => none
                        | some l10 =>
                          let l11 := l10.dropWhile jsWsB
                          let bd := l11.takeWhile Char.isDigit
                          if bd = [] then none
                          else if (l11.drop bd.length).contains rbrace then
                            some (String.mk op, digitsToNat ad, digitsToNat bd)
                          else none
    else none

/-- First match of the forced-`calculator` pattern. -/
def scanCalculator : List Char → Option (String × Nat × Nat)
  | [] => none
  | c :: cs =>
    match matchCalculatorAt (c :: cs) with
    | some r => some r
    | none => scanCalculator cs

/-- Matcher, anchored at the head, for the dynamically-built pattern
`"name"\s*:\s*"<fname>"\s*,\s*"arguments"\s*:\s*(\x7b[\s\S]*?)(?:\x7d|$)`
with the `s` flag (the forced function name is spliced in literally; the
claims only involve names without regex metacharacters): returns the captured
group, an opening brace followed by the span up to the first closing brace or
the end of input. -/
def matchNamePatternAt (fname : List Char) (l : List Char) : Option (List Char) :=
  match expectChars ("\"name\"".data) l with
  | none => none
  | some l1 =>
    match expectChars [':'] (l1.dropWhile jsWsB) with
    | none => none
    | some l2 =>
      match expectChars ('"' :: fname ++ ['"']) (l2.dropWhile jsWsB) with
      | none => none
      | some l3 =>
        match expectChars [','] (l3.dropWhile jsWsB) with
        | none => none
        | some l4 =>
          match expectChars ("\"arguments\"".data) (l4.dropWhile jsWsB) with
          | none => none
          | some l5 =>
            match expectChars [':'] (l5.dropWhile jsWsB) with
            | none => none
            | some l6 =>
              match l6.dropWhile jsWsB with
              | c :: l7 =>
                if c = lbrace then some (lbrace :: l7.takeWhile (· ≠ rbrace))
                else none
              | [] => none

/-- First match of the dynamically-built forced-function pattern. -/
def scanNamePattern (fname : List Char) : List Char → Option (List Char)
  | [] => none
  | c :: cs =>
    match matchNamePatternAt fname (c :: cs) with
    | some r => some r
    | none => scanNamePattern fname cs

/-- Processing of the group captured by the forced-function pattern:
a closing brace is appended unless already present, then the span is either
parsed and re-serialized or brace-append repaired without validation. -/
def namePatternCall (fname : String) (g : List Char) : FunctionCallR :=
  let argsText0 := String.mk g
  let argsText :=
    if argsText0.data.getLast? = some rbrace then argsText0
    else argsText0 ++ String.mk [rbrace]
  match jsonParse argsText with
  | some v => ⟨fname, jsonStringifyF (4 * argsText.data.length + 16) v⟩
  | none => ⟨fname, tryFixIncompleteJSON true argsText⟩

/-- `extractFunctionCallsFromText` of the Ollama adapter: after a whole-text
JSON repair pass, pattern 1 (JSON function-call envelopes), else pattern 2
(call syntax `ident(\x7b...\x7d)`), else the forced-function patterns for
`getWeather`/`calculator`, else the dynamically-built forced-function
pattern; `none` models returning `undefined`. -/
def extractFunctionCallsFromText (text : String) (currentRequest : AIModelRequest) :
    Option (List FunctionCallR) :=
  if text = "" then none
  else
    let fixedText := tryFixIncompleteJSON false text
    let jsonMatches := scanJsonCalls fixedText.data
    if jsonMatches.length > 0 then
      some (jsonMatches.map (fun m => (⟨m.1, ollamaArgsOf (String.mk m.2)⟩ : FunctionCallR)))
    else
      let functionMatches := scanFnCalls fixedText.data
      if functionMatches.length > 0 then
        some (functionMatches.map
          (fun m => (⟨m.1, tryFixIncompleteJSON false (String.mk m.2)⟩ : FunctionCallR)))
      else
        let p3 : Option (List FunctionCallR) :=
          match currentRequest.functionCall with
          | some (.forced fname) =>
            if fname = "getWeather" then
              match scanWeather fixedText.data with
              | some (loc, u) =>
                let unit :=
                  match u with
                  | some s => if s ≠ "" then s else "celsius"
                  | none => "celsius"
                some [⟨"getWeather",
                  jsonStringify (Json.jobj [("location", Json.jstr loc),
                                            ("unit", Json.jstr unit)])⟩]
              | none => none
            else if fname = "calculator" then
              match scanCalculator fixedText.data with
              | some (op, a, b) =>
                some [⟨"calculator",
                  jsonStringify (Json.jobj [("operation", Json.jstr op),
                    ("a", Json.jnum (toString a)), ("b", Json.jnum (toString b))])⟩]
              | none => none
            else none
          | _ => none
        match p3 with
        | some r => some r
        | none =>
          match currentRequest.functionCall with
          | some (.forced fname) =>
            match scanNamePattern fname.data fixedText.data with
            | some g => some [namePatternCall fname g]
            | none => none
          | _ => none

end Ollama

/-! ## HuggingFace adapter: function-call extraction
(src/models/huggingface-model.ts) -/

namespace HF

/-- The string consisting of an opening and a closing brace. -/
def emptyObjStr : String := String.mk [lbrace, rbrace]

/-- The arguments produced for one match of the HuggingFace pattern 1: the
trimmed captured span when it parses as JSON, else its first-to-last-brace
substring, else the empty-object string (the captured span never contains a
closing brace, so the middle case cannot fire after a parse failure of a
brace-opened span, but it is kept as in the source). -/
def hfArgsOf (rawSpan : String) : String :=
  let args := jsTrimStr rawSpan
  if (jsonParse args).isSome then args
  else
    match firstBraceSpan args.data with
    | some sub => String.mk sub
    | none => emptyObjStr

/-- Processing of one fenced-code-block match: parse it, and when it is an
object with a truthy `name` and a truthy `arguments` (or, failing that,
`args`) field, emit a call with the re-serialized arguments.  (A truthy
non-string `name` would be emitted as-is in JavaScript; the declared
`FunctionCall` type makes `name` a string, and that case is not modelled.) -/
def markdownCall (g : List Char) : Option FunctionCallR :=
  match jsonParse (String.mk g) with
  | some (Json.jobj kvs) =>
    let argV :=
      match jsObjGet ("arguments") kvs with
      | some a => if jsTruthy a then some a else jsObjGet ("args") kvs
      | none => jsObjGet ("args") kvs
    match jsObjGet ("name") kvs, argV with
    | some (Json.jstr n), some a =>
      if n ≠ "" ∧ jsTruthy a then
        some ⟨n, jsonStringifyF (4 * g.length + 16) a⟩
      else none
    | _, _ => none
  | _ => none

/-- `extractFunctionCallsFromText` of the HuggingFace adapter: the matches of
pattern 1 (JSON function-call envelopes), pattern 2 (call syntax) and
pattern 3 (fenced code blocks) are all collected; `none` models returning
`undefined` when nothing matched. -/
def extractFunctionCallsFromText (text : String) : Option (List FunctionCallR) :=
  if text = "" then none
  else
    let m1 := (scanJsonCalls text.data).map
      (fun m => (⟨m.1, hfArgsOf (String.mk m.2)⟩ : FunctionCallR))
    let m2 := (scanFnCalls text.data).map
      (fun m => (⟨m.1, String.mk m.2⟩ : FunctionCallR))
    let m3 := (scanMarkdown text.data).filterMap markdownCall
    let all := m1 ++ m2 ++ m3
    if all.length > 0 then some all else none

end HF

/-! ## HuggingFace adapter: response normalization, multimodal fallback and
synthetic streaming (src/models/huggingface-model.ts) -/

/-- The three backtick characters of a code fence. -/
def codeFence : String := String.mk [btick, btick, btick]

namespace HF

/-- `response.data[0]?.generated_text || ""` for an array payload: the
`generated_text` of a first object element when truthy, else the empty
string. -/
def arrayFirstText (xs : List Json) : Json :=
  match xs.head? with
  | some (Json.jobj kvs) =>
    match jsObjGet ("generated_text") kvs with
    | some v => if jsTruthy v then v else Json.jstr ("")
    | none => Json.jstr ("")
  | _ => Json.jstr ("")

/-- The `generated_text` property of a non-array payload (`none` plays
`undefined`; property access on primitives boxes and yields `undefined`). -/
def genTextOf : Json → Option Json
  | Json.jobj kvs => jsObjGet ("generated_text") kvs
  | _ => none

/-- Response-text decoding of `generateTextOnly` (no bare-string branch):
array payloads via `arrayFirstText`, non-array payloads with a truthy
`generated_text` yield that field, anything else is `JSON.stringify`-ed;
property access on a `null` payload throws. -/
def parseTextOnly : Json → Except String Json
  | Json.jarr xs => Except.ok (arrayFirstText xs)
  | Json.jnull => Except.error ("TypeError: Cannot read properties of null")
  | d =>
    match genTextOf d with
    | some v => if jsTruthy v then Except.ok v else Except.ok (Json.jstr (jsonStringify d))
    | none => Except.ok (Json.jstr (jsonStringify d))

/-- Response-text decoding of `parseResponseWithFunctionCalls` (used on the
image paths): as `parseTextOnly` but with an additional bare-string branch
before the `JSON.stringify` fallback. -/
def parseRespWithFunctionCalls : Json → Except String Json
  | Json.jarr xs => Except.ok (arrayFirstText xs)
  | Json.jnull => Except.error ("TypeError: Cannot read properties of null")
  | d =>
    match genTextOf d with
    | some v =>
      if jsTruthy v then Except.ok v
      else
        match d with
        | Json.jstr s => Except.ok (Json.jstr s)
        | _ => Except.ok (Json.jstr (jsonStringify d))
    | none =>
      match d with
      | Json.jstr s => Except.ok (Json.jstr s)
      | _ => Except.ok (Json.jstr (jsonStringify d))

/-- The chunk loop of `stream`: `for (let i = 0; i < text.length; i += 10)`
yielding `text.slice(i, i + 10)`, fuel-bounded by the text length. -/
def chunkListAux : Nat → List Char → List (List Char)
  | 0, _ => []
  | _, [] => []
  | Nat.succ fuel, c :: cs => (c :: cs).take 10 :: chunkListAux fuel ((c :: cs).drop 10)

/-- The synthetic stream of the HuggingFace adapter: the text of one
non-streaming `generate` call re-chunked into consecutive 10-character
slices. -/
def streamChunks (text : String) : List String :=
  (chunkListAux text.data.length text.data).map String.mk

/-- The three payload formats attempted for requests with images. -/
inductive HFFormat where
  | nested : HFFormat
  | flat : HFFormat
  | multipart : HFFormat

/-- `Array.prototype.join` with a separator. -/
def joinSep (sep : String) : List String → String
  | [] => ""
  | [x] => x
  | x :: xs => x ++ sep ++ joinSep sep xs

/-- The vision-capable model suggested in the aggregated error. -/
def suggestedVisionModel : String := "llava-hf/llava-1.5-7b-hf"

/-- The aggregated error thrown when all three multimodal formats fail. -/
def multimodalFailureMessage (model : String) (errs : List String) : String :=
  "Model \"" ++ model ++
    "\" doesn\x27t appear to support multimodal inputs in any of the attempted formats. " ++
    "Try a different vision-capable model like \x27" ++ suggestedVisionModel ++
    "\x27. Errors: " ++ joinSep ("; ") errs

/-- `generateWithImages`: the nested, flat and multipart formats are attempted
in that order, an error from one format being recorded and the next format
tried; the first success is returned, and when all three fail the accumulated
errors are aggregated into one thrown error.  The network outcome of each
attempt is supplied by `attempt`. -/
def generateWithImages {α : Type} (model : String) (attempt : HFFormat → Except String α) :
    Except String α :=
  match attempt HFFormat.nested with
  | Except.ok v => Except.ok v
  | Except.error e1 =>
    match attempt HFFormat.flat with
    | Except.ok v => Except.ok v
    | Except.error e2 =>
      match attempt HFFormat.multipart with
      | Except.ok v => Except.ok v
      | Except.error e3 => Except.error (multimodalFailureMessage model [e1, e2, e3])

/-- The `parameters` object of HuggingFace payloads (defaults applied through
JavaScript `||`). -/
structure HFParameters where
  temperature : Rat
  max_new_tokens : Nat
  top_p : Rat
  return_full_text : Bool
deriving DecidableEq

/-- `parameters` from a merged configuration. -/
def hfParameters (config : AIModelConfig) : HFParameters :=
  ⟨ratOr config.temperature (1 / 10), natOr config.maxTokens 500,
   ratOr config.topP (9 / 10), false⟩

/-- The system prompt prepended to the prompt, when truthy. -/
def basePrompt (r : AIModelRequest) : String :=
  if strTruthy r.systemPrompt then (r.systemPrompt.getD ("")) ++ "\n\n" ++ r.prompt
  else r.prompt

/-- The prompt enhanced with function definitions and calling guidance
(shared verbatim by the nested, flat and multipart format builders). -/
def enhancedPrompt (r : AIModelRequest) : String :=
  if fnsPresent r.functions then
    let functionText := jsonStringify2
      (Json.jobj [("functions", Json.jarr ((r.functions.getD []).map fdToJson))])
    let ep := basePrompt r ++ "\n\nAvailable functions:\n" ++ codeFence ++ "json\n" ++
      functionText ++ "\n" ++ codeFence ++ "\n\n"
    ep ++ (match r.functionCall with
           | some (FunctionCallDirective.forced n) =>
             "Please call the function: " ++ n ++ "\n\n"
           | some FunctionCallDirective.auto =>
             "Call the appropriate function if needed.\n\n"
           | _ => "")
  else basePrompt r

/-- Number of image items in the optional content list. -/
def contentImageCount : Option (List Content) → Nat
  | some items =>
    (items.filter (fun it => match it with | Content.image _ => true | Content.text _ => false)).length
  | none => 0

/-- The payload of the nested multimodal format:
`\x7binputs: \x7btext, image?, images?\x7d, parameters\x7d`. -/
structure HFNestedPayload where
  text : String
  image : Option String
  images : Option (List String)
  parameters : HFParameters
deriving DecidableEq

/-- The content loop of the nested format builder: image items are resolved
in order; with more than one content image they are pushed onto
`inputs.images`, otherwise each assigns `inputs.image` (overwriting it). -/
def nestedContentFold (env : Env) (hasMultiple : Bool) :
    List Content → Option String × Option (List String) →
    Except String (Option String × Option (List String))
  | [], st => Except.ok st
  | Content.text _ :: rest, st => nestedContentFold env hasMultiple rest st
  | Content.image src :: rest, (img, imgs) =>
    match processImage env src with
    | Except.error e => Except.error e
    | Except.ok (b64, _) =>
      if hasMultiple then
        nestedContentFold env hasMultiple rest (img, some ((imgs.getD []) ++ [b64]))
      else
        nestedContentFold env hasMultiple rest (some b64, imgs)

/-- The payload built by `generateWithNestedFormat`: the convenience image is
resolved into `inputs.image` first, then the content list is processed. -/
def generateWithNestedFormatPayload (env : Env) (r : AIModelRequest) (config : AIModelConfig) :
    Except String HFNestedPayload :=
  let convStep : Except String (Option String) :=
    match r.image with
    | some src =>
      if imgSrcTruthy src then
        match processImage env src with
        | Except.error e => Except.error e
        | Except.ok (b64, _) => Except.ok (some b64)
      else Except.ok none
    | none => Except.ok none
  match convStep with
  | Except.error e => Except.error e
  | Except.ok convImage =>
    match r.content with
    | none => Except.ok ⟨enhancedPrompt r, convImage, none, hfParameters config⟩
    | some items =>
      let hasMultiple : Bool := decide (1 < contentImageCount (some items))
      match nestedContentFold env hasMultiple items
          (convImage, if hasMultiple then some [] else none) with
      | Except.error e => Except.error e
      | Except.ok (img, imgs) => Except.ok ⟨enhancedPrompt r, img, imgs, hfParameters config⟩

/-- The payload of the flat multimodal format:
`\x7binputs: text, image?, parameters\x7d`. -/
structure HFFlatPayload where
  inputs : String
  image : Option String
  parameters : HFParameters
deriving DecidableEq

/-- `request.content.find(item => item.type === "image")`. -/
def firstContentImage : List Content → Option ImageSource
  | [] => none
  | Content.image src :: _ => some src
  | Content.text _ :: rest => firstContentImage rest

/-- The payload built by `generateWithFlatFormat`: the convenience image goes
to the top-level `image` field; only when the convenience image is absent is
the first content image used instead (remaining content images are ignored). -/
def generateWithFlatFormatPayload (env : Env) (r : AIModelRequest) (config : AIModelConfig) :
    Except String HFFlatPayload :=
  if imgTruthy r.image then
    match r.image with
    | some src =>
      match processImage env src with
      | Except.error e => Except.error e
      | Except.ok (b64, _) => Except.ok ⟨enhancedPrompt r, some b64, hfParameters config⟩
    | none => Except.ok ⟨enhancedPrompt r, none, hfParameters config⟩
  else
    match r.content with
    | some items =>
      match firstContentImage items with
      | some src =>
        match processImage env src with
        | Except.error e => Except.error e
        | Except.ok (b64, _) => Except.ok ⟨enhancedPrompt r, some b64, hfParameters config⟩
      | none => Except.ok ⟨enhancedPrompt r, none, hfParameters config⟩
    | none => Except.ok ⟨enhancedPrompt r, none, hfParameters config⟩

end HF

/-! ## OpenAI adapter: message formatting (src/models/openai-model.ts) -/

/-- A part of an OpenAI user-message content array. -/
inductive OAIPart where
  | otext : String → OAIPart
  | oimage : String → OAIPart
deriving DecidableEq

/-- OpenAI message content: a plain string or an array of parts. -/
inductive OAIContent where
  | cstr : String → OAIContent
  | cparts : List OAIPart → OAIContent
deriving DecidableEq

/-- An OpenAI chat message. -/
structure OAIMessage where
  role : String
  content : OAIContent
deriving DecidableEq

namespace OpenAI

/-- The `data:<mime>;base64,<payload>` URI embedded for an image. -/
def dataURI (mime b64 : String) : String :=
  "data:" ++ mime ++ ";base64," ++ b64

/-- The structured-content loop of `formatMessages`: text items become text
parts, image items are resolved into data-URI image parts, in order. -/
def contentParts (env : Env) : List Content → Except String (List OAIPart)
  | [] => Except.ok []
  | Content.text t :: rest =>
    match contentParts env rest with
    | Except.error e => Except.error e
    | Except.ok ps => Except.ok (OAIPart.otext t :: ps)
  | Content.image src :: rest =>
    match processImage env src with
    | Except.error e => Except.error e
    | Except.ok (b64, mime) =>
      match contentParts env rest with
      | Except.error e => Except.error e
      | Except.ok ps => Except.ok (OAIPart.oimage (dataURI mime b64) :: ps)

/-- `formatMessages`: optional system message, then one user message — with a
content-part array (prompt text, content parts, then the convenience image)
whenever `content` or a truthy `image` is present, else a plain string. -/
def formatMessages (env : Env) (r : AIModelRequest) : Except String (List OAIMessage) :=
  let sys : List OAIMessage :=
    if strTruthy r.systemPrompt then [⟨"system", OAIContent.cstr (r.systemPrompt.getD (""))⟩]
    else []
  if r.content.isSome || imgTruthy r.image then
    let pparts := if r.prompt ≠ "" then [OAIPart.otext r.prompt] else []
    match (match r.content with
           | some items => contentParts env items
           | none => Except.ok []) with
    | Except.error e => Except.error e
    | Except.ok cps =>
      match (match r.image with
             | some src =>
               if imgSrcTruthy src then
                 match processImage env src with
                 | Except.error e => Except.error e
                 | Except.ok (b64, mime) => Except.ok [OAIPart.oimage (dataURI mime b64)]
               else Except.ok []
             | none => Except.ok []) with
      | Except.error e => Except.error e
      | Except.ok ips =>
        Except.ok (sys ++ [⟨"user", OAIContent.cparts (pparts ++ cps ++ ips)⟩])
  else
    Except.ok (sys ++ [⟨"user", OAIContent.cstr r.prompt⟩])

/-- The image data URIs of a part list, in order. -/
def imageURLs : List OAIPart → List String
  | [] => []
  | OAIPart.oimage u :: rest => u :: imageURLs rest
  | OAIPart.otext _ :: rest => imageURLs rest

end OpenAI

/-! ## Ollama adapter: request payload construction
(src/models/ollama-model.ts, createRequestPayload) -/

/-- A part of an Ollama user-message content array: text, or an image with
base64 data and MIME type. -/
inductive OllamaContent where
  | ctext : String → OllamaContent
  | cimage : String → String → OllamaContent
deriving DecidableEq

/-- Ollama message content: a plain string or an array of parts. -/
inductive OllamaMsgContent where
  | mstr : String → OllamaMsgContent
  | mparts : List OllamaContent → OllamaMsgContent
deriving DecidableEq

/-- An Ollama chat message. -/
structure OllamaMessage where
  role : String
  content : OllamaMsgContent
deriving DecidableEq

/-- The Ollama request payload; `messages` present means the `chat` endpoint
is used, `prompt` present means the `generate` endpoint. -/
structure OllamaPayload where
  model : String
  temperature : Option Rat
  top_p : Option Rat
  num_predict : Option Nat
  stream : Bool
  messages : Option (List OllamaMessage)
  prompt : Option String
deriving DecidableEq

namespace Ollama

/-- The chat-format trigger: an image is present (truthy), or the content
list has an image, or function definitions are present (non-empty), or the
system prompt is truthy. -/
def useMessagesFormat (r : AIModelRequest) : Bool :=
  imgTruthy r.image || contentHasImage r.content || fnsPresent r.functions ||
    strTruthy r.systemPrompt

/-- The literal `\x7b"name": "<n>", "arguments": \x7b...\x7d\x7d` instruction
line. -/
def jsonCallTemplate (n : String) : String :=
  String.mk [lbrace] ++ "\"name\": \"" ++ n ++ "\", \"arguments\": " ++
    String.mk [lbrace] ++ "..." ++ String.mk [rbrace, rbrace]

/-- The synthesized system prompt carrying the function definitions when the
request has functions but no system prompt. -/
def functionSystemPrompt (r : AIModelRequest) : String :=
  let base := "You are a helpful AI assistant with access to functions." ++
    "\n\nAvailable functions:\n" ++ codeFence ++ "json\n" ++
    jsonStringify2 (Json.jarr ((r.functions.getD []).map fdToJson)) ++
    "\n" ++ codeFence ++ "\n\n"
  base ++
    (match r.functionCall with
     | some (FunctionCallDirective.forced n) =>
       "You must call the function: " ++ n ++ ".\n" ++
         "Format your response as a function call using this exact format:\n" ++
         jsonCallTemplate n ++ "\n"
     | some FunctionCallDirective.auto =>
       "Call one of these functions if appropriate for the user\x27s request.\n" ++
         "Format your response as a function call using this exact format:\n" ++
         jsonCallTemplate ("functionName") ++ "\n"
     | _ => "")

/-- The system messages of the chat format: the request system prompt when
truthy, else the synthesized function system prompt when functions are
present. -/
def systemMessages (r : AIModelRequest) : List OllamaMessage :=
  if strTruthy r.systemPrompt then [⟨"system", OllamaMsgContent.mstr (r.systemPrompt.getD (""))⟩]
  else if fnsPresent r.functions then [⟨"system", OllamaMsgContent.mstr (functionSystemPrompt r)⟩]
  else []

/-- The structured-content loop of `createRequestPayload`: text items become
text parts, image items are resolved into image parts, in order. -/
def contentParts (env : Env) : List Content → Except String (List OllamaContent)
  | [] => Except.ok []
  | Content.text t :: rest =>
    match contentParts env rest with
    | Except.error e => Except.error e
    | Except.ok ps => Except.ok (OllamaContent.ctext t :: ps)
  | Content.image src :: rest =>
    match processImage env src with
    | Except.error e => Except.error e
    | Except.ok (b64, mime) =>
      match contentParts env rest with
      | Except.error e => Except.error e
      | Except.ok ps => Except.ok (OllamaContent.cimage b64 mime :: ps)

/-- The user-message content parts: the prompt text when nonempty, the
content parts, then the convenience image when truthy. -/
def userContent (env : Env) (r : AIModelRequest) : Except String (List OllamaContent) :=
  let promptParts := if r.prompt ≠ "" then [OllamaContent.ctext r.prompt] else []
  match (match r.content with
         | some items => contentParts env items
         | none => Except.ok []) with
  | Except.error e => Except.error e
  | Except.ok cps =>
    match (match r.image with
           | some src =>
             if imgSrcTruthy src then
               match processImage env src with
               | Except.error e => Except.error e
               | Except.ok (b64, mime) => Except.ok [OllamaContent.cimage b64 mime]
             else Except.ok []
           | none => Except.ok []) with
    | Except.error e => Except.error e
    | Except.ok ips => Except.ok (promptParts ++ cps ++ ips)

/-- The user message: a single text part collapses to a string, an empty part
list becomes the empty string, anything else is a part array. -/
def userMessage (parts : List OllamaContent) : OllamaMessage :=
  match parts with
  | [OllamaContent.ctext t] => ⟨"user", OllamaMsgContent.mstr t⟩
  | [] => ⟨"user", OllamaMsgContent.mstr ("")⟩
  | ps => ⟨"user", OllamaMsgContent.mparts ps⟩

/-- `createRequestPayload`: base fields from the merged configuration
(`num_predict` added only when `maxTokens` is truthy), then either the chat
format — messages array, with `num_predict` deleted — or the flat format with
the system prompt, when truthy, prepended to the prompt separated by a blank
line. -/
def createRequestPayload (env : Env) (r : AIModelRequest) (config : AIModelConfig)
    (isStream : Bool) : Except String OllamaPayload :=
  let numPredict : Option Nat :=
    match config.maxTokens with
    | some m => if m ≠ 0 then some m else none
    | none => none
  if useMessagesFormat r then
    match userContent env r with
    | Except.error e => Except.error e
    | Except.ok parts =>
      Except.ok ⟨strOr config.model ("llama3"), config.temperature, config.topP, none,
                 isStream, some (systemMessages r ++ [userMessage parts]), none⟩
  else
    Except.ok ⟨strOr config.model ("llama3"), config.temperature, config.topP, numPredict,
               isStream, none,
               some (if strTruthy r.systemPrompt
                     then (r.systemPrompt.getD ("")) ++ "\n\n" ++ r.prompt
                     else r.prompt)⟩

end Ollama

/-! ## Configuration merge (base model) -/

/-- Pick the override field when defined, else the default. -/
def fieldPick {α : Type} (override defaultV : Option α) : Option α :=
  match override with
  | some v => some v
  | none => defaultV

/-- Modelled from the spec: the shared configuration-merge helper of the base
model class lives in `base-model.ts`, which is not among the provided sources
(only its call sites `this.mergeConfig(request.options)` are).  Spec: "Merge
rule: per-call override fields take precedence field-by-field over instance
defaults; fields absent in both resolve to backend-specific defaults applied
later by each adapter." -/
def mergeConfig (defaults : AIModelConfig) (override : Option AIModelConfig) : AIModelConfig :=
  match override with
  | none => defaults
  | some o =>
    ⟨fieldPick o.apiKey defaults.apiKey, fieldPick o.baseURL defaults.baseURL,
     fieldPick o.model defaults.model, fieldPick o.temperature defaults.temperature,
     fieldPick o.maxTokens defaults.maxTokens, fieldPick o.topP defaults.topP⟩

/-! ## Observation helpers and concrete instances used by the theorems -/

/-- Substring containment, stated on the underlying character lists. -/
def strContains (hay needle : String) : Prop :=
  ∃ a b : List Char, hay.data = a ++ needle.data ++ b

/-- Concatenation of a list of strings. -/
def strJoin (l : List String) : String :=
  String.mk (l.foldr (fun s acc => s.data ++ acc) [])

/-- The images carried by a nested-format payload: the single `inputs.image`
field and the `inputs.images` list. -/
def nestedPayloadImages (p : HF.HFNestedPayload) : List String :=
  (match p.image with | some i => [i] | none => []) ++ p.images.getD []

/-- The images carried by a flat-format payload. -/
def flatPayloadImages (p : HF.HFFlatPayload) : List String :=
  match p.image with | some i => [i] | none => []

/-- The exact generated text of the claim about the extractors:
`\x7b"name": "getWeather", "arguments": \x7b"location": "Tokyo", "unit": "celsius"\x7d\x7d`. -/
def c2Input : String :=
  "\x7b\"name\": \"getWeather\", \"arguments\": \x7b\"location\": \"Tokyo\", \"unit\": \"celsius\"\x7d\x7d"

/-- The arguments string produced by the Ollama extractor on `c2Input`. -/
def tokyoArgs : String := "\x7b\"location\":\"Tokyo\",\"unit\":\"celsius\"\x7d"

/-- A generated text whose function-call envelope has a truncated arguments
object (three opening braces, one closing). -/
def c3Input : String := "\x7b\"name\": \"f\", \"arguments\": \x7b\"a\": \x7b\"b\": \x7d"

/-- The arguments string the Ollama extractor produces on `c3Input`: the
brace-appended captured span, which is still not valid JSON. -/
def c3BadArgs : String := "\x7b\"a\": \x7b\"b\": \x7d\x7d"

/-- A request with a truthy system prompt and a plain prompt. -/
def rSysW : AIModelRequest := { plainRequest ("hi") with systemPrompt := some ("sys") }

/-- The Ollama payload produced for `rSysW` (chat format, no `num_predict`). -/
def pSysW : OllamaPayload :=
  ⟨"llama3", none, none, none, false,
   some [⟨"system", OllamaMsgContent.mstr ("sys")⟩, ⟨"user", OllamaMsgContent.mstr ("hi")⟩],
   none⟩

/-- A configuration with only `maxTokens` set. -/
def cfgMaxW : AIModelConfig := { cfgNone with maxTokens := some 100 }

/-- A request carrying both the convenience image (the byte `1`) and one
content-list image (the byte `2`). -/
def rBothImages : AIModelRequest :=
  { plainRequest ("hi") with
      image := some (ImageSource.buffer [1]),
      content := some [Content.image (ImageSource.buffer [2])] }

/-- A request with the given prompt, content images from the given buffers,
and a convenience image from `conv`. -/
def reqWithImages (prompt : String) (bufs : List (List Nat)) (conv : List Nat) :
    AIModelRequest :=
  { plainRequest prompt with
      image := some (ImageSource.buffer conv),
      content := some (bufs.map (fun b => Content.image (ImageSource.buffer b))) }

/-- A concrete environment resolving one URL to the bytes of `"Man"`. -/
def env8 : Env :=
  { parseURL := fun u => if u = "http://h/i.png" then some ⟨"http:"⟩ else none,
    fetchImage := fun u =>
      if u = "http://h/i.png" then Except.ok [77, 97, 110] else Except.error ("nope"),
    fileIsRegular := fun _ => false,
    readFile := fun _ => Except.error ("no") }

/-! ## Helper lemmas -/

/-- String append acts as list append on the character data. -/
theorem string_data_append (s t : String) : (s ++ t).data = s.data ++ t.data := rfl

/-- `jsonSize` of a string value. -/
theorem jsonSize_jstr (s : String) : jsonSize (Json.jstr s) = 1 := by
  simp [jsonSize]

/-- Members survive `dropWhile`. -/
theorem mem_of_mem_dropWhile {α : Type} {p : α → Bool} {a : α} :
    ∀ {l : List α}, a ∈ l.dropWhile p → a ∈ l := by
  intro l
  induction l with
  | nil => intro h; simp at h
  | cons c cs ih =>
    intro h
    by_cases hc : p c
    · simp only [List.dropWhile_cons, hc] at h
      exact List.mem_cons_of_mem _ (ih h)
    · simp only [List.dropWhile_cons, hc] at h
      simpa using h

/-- Members survive `jsTrim`. -/
theorem mem_of_mem_jsTrim {a : Char} {l : List Char} (h : a ∈ jsTrim l) : a ∈ l := by
  unfold jsTrim at h
  rw [List.mem_reverse] at h
  have h1 := mem_of_mem_dropWhile h
  rw [List.mem_reverse] at h1
  exact mem_of_mem_dropWhile h1

/-- Without any closing brace in the input, `dropWhile (· ≠ rbrace)` consumes
everything. -/
theorem dropWhile_ne_rbrace_eq_nil {l : List Char} (h : rbrace ∉ l) :
    l.dropWhile (· ≠ rbrace) = [] := by
  rw [List.dropWhile_eq_nil_iff]
  intro x hx
  have hne : x ≠ rbrace := fun hxx => h (hxx ▸ hx)
  simp [hne]

/-- Without any closing brace in the input, the greedy brace-span pattern has
no match. -/
theorem firstBraceSpan_eq_none {l : List Char} (h : rbrace ∉ l) :
    firstBraceSpan l = none := by
  unfold firstBraceSpan
  cases hd : l.dropWhile (· ≠ lbrace) with
  | nil => rfl
  | cons c rest =>
    have hsub : rbrace ∉ rest := by
      intro hx
      exact h (mem_of_mem_dropWhile (l := l) (by rw [hd]; exact List.mem_cons_of_mem _ hx))
    have h2 : rest.reverse.dropWhile (· ≠ rbrace) = [] :=
      dropWhile_ne_rbrace_eq_nil (by rwa [List.mem_reverse])
    dsimp only
    rw [h2]

/-! ## Claim C2: the extractors on the exact getWeather envelope -/

/-- Claim C2, counterexample: on the exact input
`\x7b"name": "getWeather", "arguments": \x7b"location": "Tokyo", "unit": "celsius"\x7d\x7d`
the HuggingFace extractor does yield one call named `getWeather`, but its
arguments string is `"\x7b\x7d"` — it parses to the empty object, not to the
`location`/`unit` object the claim requires (the lazy capture loses the inner
closing brace and the HuggingFace path has no brace repair). -/
theorem c2_extractor_cex :
    HF.extractFunctionCallsFromText c2Input = some [⟨"getWeather", HF.emptyObjStr⟩] ∧
    jsonParse HF.emptyObjStr = some (Json.jobj []) ∧
    (Json.jobj [] =
      Json.jobj [("location", Json.jstr ("Tokyo")), ("unit", Json.jstr ("celsius"))] →
      False) := by
  refine ⟨rfl, rfl, ?_⟩
  intro h
  simp at h

/-- Claim C2, amended: on that exact input the Ollama extractor yields exactly
one FunctionCall named `getWeather` whose arguments parse back to
`\x7blocation: "Tokyo", unit: "celsius"\x7d`, while the HuggingFace extractor
yields exactly one FunctionCall named `getWeather` whose arguments are the
empty-object string. -/
theorem c2_extractor_getweather :
    Ollama.extractFunctionCallsFromText c2Input (plainRequest ("x")) =
      some [⟨"getWeather", tokyoArgs⟩] ∧
    jsonParse tokyoArgs =
      some (Json.jobj [("location", Json.jstr ("Tokyo")), ("unit", Json.jstr ("celsius"))]) ∧
    HF.extractFunctionCallsFromText c2Input = some [⟨"getWeather", HF.emptyObjStr⟩] :=
  ⟨rfl, rfl, rfl⟩

/-! ## Claim C7: configuration merge -/

/-- Claim C7: the effective per-call configuration takes each field from the
override when the override defines it and from the instance default
otherwise; in particular instance `\x7btemperature: 0.2\x7d` merged with
override `\x7btemperature: 0.9, maxTokens: 100\x7d` yields temperature `0.9`
and maxTokens `100`. -/
theorem c7_merge_config (d o : AIModelConfig) :
    (mergeConfig d (some o)).apiKey =
      (match o.apiKey with | some v => some v | none => d.apiKey) ∧
    (mergeConfig d (some o)).baseURL =
      (match o.baseURL with | some v => some v | none => d.baseURL) ∧
    (mergeConfig d (some o)).model =
      (match o.model with | some v => some v | none => d.model) ∧
    (mergeConfig d (some o)).temperature =
      (match o.temperature with | some v => some v | none => d.temperature) ∧
    (mergeConfig d (some o)).maxTokens =
      (match o.maxTokens with | some v => some v | none => d.maxTokens) ∧
    (mergeConfig d (some o)).topP =
      (match o.topP with | some v => some v | none => d.topP) ∧
    mergeConfig { cfgNone with temperature := some (0.2 : Rat) }
        (some { cfgNone with temperature := some (0.9 : Rat), maxTokens := some 100 }) =
      { cfgNone with temperature := some (0.9 : Rat), maxTokens := some 100 } := by
  refine ⟨?_, ?_, ?_, ?_, ?_, ?_, rfl⟩
  · cases ha : o.apiKey <;> simp [mergeConfig, fieldPick, ha]
  · cases ha : o.baseURL <;> simp [mergeConfig, fieldPick, ha]
  · cases ha : o.model <;> simp [mergeConfig, fieldPick, ha]
  · cases ha : o.temperature <;> simp [mergeConfig, fieldPick, ha]
  · cases ha : o.maxTokens <;> simp [mergeConfig, fieldPick, ha]
  · cases ha : o.topP <;> simp [mergeConfig, fieldPick, ha]

/-! ## Claim C4: the three-format multimodal fallback -/

/-- Claim C4: for image-bearing HuggingFace requests the nested, flat and
multipart formats are attempted in that fixed order, an earlier error is
suppressed and the next format tried, a success of any format is returned
with no error surfaced, and when all three fail exactly one error is thrown
whose message names every accumulated failure cause and suggests a known
working vision model. -/
theorem c4_hf_multimodal_fallback {α : Type} (model : String)
    (attempt : HF.HFFormat → Except String α) :
    (∀ v, attempt HF.HFFormat.nested = Except.ok v →
      HF.generateWithImages model attempt = Except.ok v) ∧
    (∀ e1 v, attempt HF.HFFormat.nested = Except.error e1 →
      attempt HF.HFFormat.flat = Except.ok v →
      HF.generateWithImages model attempt = Except.ok v) ∧
    (∀ e1 e2 v, attempt HF.HFFormat.nested = Except.error e1 →
      attempt HF.HFFormat.flat = Except.error e2 →
      attempt HF.HFFormat.multipart = Except.ok v →
      HF.generateWithImages model attempt = Except.ok v) ∧
    (∀ e1 e2 e3, attempt HF.HFFormat.nested = Except.error e1 →
      attempt HF.HFFormat.flat = Except.error e2 →
      attempt HF.HFFormat.multipart = Except.error e3 →
      HF.generateWithImages model attempt =
        Except.error (HF.multimodalFailureMessage model [e1, e2, e3]) ∧
      strContains (HF.multimodalFailureMessage model [e1, e2, e3]) e1 ∧
      strContains (HF.multimodalFailureMessage model [e1, e2, e3]) e2 ∧
      strContains (HF.multimodalFailureMessage model [e1, e2, e3]) e3 ∧
      strContains (HF.multimodalFailureMessage model [e1, e2, e3])
        HF.suggestedVisionModel) := by
  refine ⟨?_, ?_, ?_, ?_⟩
  · intro v h1
    unfold HF.generateWithImages
    rw [h1]
  · intro e1 v h1 h2
    unfold HF.generateWithImages
    rw [h1, h2]
  · intro e1 e2 v h1 h2 h3
    unfold HF.generateWithImages
    rw [h1, h2, h3]
  · intro e1 e2 e3 h1 h2 h3
    refine ⟨?_, ?_, ?_, ?_, ?_⟩
    · unfold HF.generateWithImages
      rw [h1, h2, h3]
    · exact ⟨("Model \"" ++ model ++
        "\" doesn\x27t appear to support multimodal inputs in any of the attempted formats. " ++
        "Try a different vision-capable model like \x27" ++ HF.suggestedVisionModel ++
        "\x27. Errors: ").data, ("; " ++ e2 ++ "; " ++ e3).data, by
          simp [HF.multimodalFailureMessage, HF.joinSep, string_data_append, List.append_assoc]⟩
    · exact ⟨("Model \"" ++ model ++
        "\" doesn\x27t appear to support multimodal inputs in any of the attempted formats. " ++
        "Try a different vision-capable model like \x27" ++ HF.suggestedVisionModel ++
        "\x27. Errors: " ++ e1 ++ "; ").data, ("; " ++ e3).data, by
          simp [HF.multimodalFailureMessage, HF.joinSep, string_data_append, List.append_assoc]⟩
    · exact ⟨("Model \"" ++ model ++
        "\" doesn\x27t appear to support multimodal inputs in any of the attempted formats. " ++
        "Try a different vision-capable model like \x27" ++ HF.suggestedVisionModel ++
        "\x27. Errors: " ++ e1 ++ "; " ++ e2 ++ "; ").data, ([] : List Char), by
          simp [HF.multimodalFailureMessage, HF.joinSep, string_data_append, List.append_assoc]⟩
    · exact ⟨("Model \"" ++ model ++
        "\" doesn\x27t appear to support multimodal inputs in any of the attempted formats. " ++
        "Try a different vision-capable model like \x27").data,
        ("\x27. Errors: " ++ e1 ++ "; " ++ e2 ++ "; " ++ e3).data, by
          simp [HF.multimodalFailureMessage, HF.joinSep, string_data_append, List.append_assoc]⟩

/-- Claim C4, witness: a run in which all three formats fail produces exactly
the aggregated error, which contains each cause and the suggested vision
model. -/
theorem c4_hf_multimodal_fallback_witness :
    HF.generateWithImages ("m")
        (fun f => match f with
                  | HF.HFFormat.nested => (Except.error ("e1") : Except String Unit)
                  | HF.HFFormat.flat => Except.error ("e2")
                  | HF.HFFormat.multipart => Except.error ("e3")) =
      Except.error (HF.multimodalFailureMessage ("m") ["e1", "e2", "e3"]) ∧
    strContains (HF.multimodalFailureMessage ("m") ["e1", "e2", "e3"]) ("e2") ∧
    strContains (HF.multimodalFailureMessage ("m") ["e1", "e2", "e3"])
      HF.suggestedVisionModel := by
  have h := (c4_hf_multimodal_fallback ("m")
    (fun f => match f with
              | HF.HFFormat.nested => (Except.error ("e1") : Except String Unit)
              | HF.HFFormat.flat => Except.error ("e2")
              | HF.HFFormat.multipart => Except.error ("e3"))).2.2.2
      ("e1") ("e2") ("e3") rfl rfl rfl
  exact ⟨h.1, h.2.2.1, h.2.2.2.2⟩

/-! ## Claim C1: text-only response decoding of the HuggingFace adapter -/

/-- Claim C1, counterexample: for a bare-string backend payload `"Four"` the
text-only decoder yields the JSON stringification `"\"Four\""`, not the
string itself — the text-only path (`generateTextOnly`) has no bare-string
branch, unlike `parseResponseWithFunctionCalls`. -/
theorem c1_hf_text_only_bare_string_cex :
    HF.parseTextOnly (Json.jstr ("Four")) = Except.ok (Json.jstr ("\"Four\"")) ∧
    ("\"Four\"" : String) ≠ "Four" := by
  constructor
  · show Except.ok (Json.jstr (jsonStringify (Json.jstr ("Four")))) = _
    rw [jsonStringify, jsonSize_jstr]
    rfl
  · decide

/-- Claim C1, amended: on the text-only path, an array payload yields the
first element's `generated_text` (the empty string when it is absent or
empty), an object payload with a truthy `generated_text` yields that field,
and any other payload — a bare string included — yields the JSON
stringification of the whole payload; the bare string itself is returned only
by the image-path decoder `parseResponseWithFunctionCalls`. -/
theorem c1_hf_text_only_decode (t s : String) (rest : List Json) :
    HF.parseTextOnly (Json.jarr (Json.jobj [("generated_text", Json.jstr t)] :: rest)) =
      Except.ok (Json.jstr t) ∧
    (t ≠ "" → HF.parseTextOnly (Json.jobj [("generated_text", Json.jstr t)]) =
      Except.ok (Json.jstr t)) ∧
    HF.parseTextOnly (Json.jstr s) = Except.ok (Json.jstr (jsonStringify (Json.jstr s))) ∧
    HF.parseRespWithFunctionCalls (Json.jstr s) = Except.ok (Json.jstr s) := by
  refine ⟨?_, ?_, rfl, rfl⟩
  · by_cases ht : t = "" <;>
      simp [HF.parseTextOnly, HF.arrayFirstText, jsObjGet, jsTruthy, ht]
  · intro ht
    simp [HF.parseTextOnly, HF.genTextOf, jsObjGet, jsTruthy, ht]

/-- Claim C1, witness: an object payload with `generated_text: "ok"` decodes
to `"ok"` on the text-only path. -/
theorem c1_hf_text_only_decode_witness :
    HF.parseTextOnly (Json.jobj [("generated_text", Json.jstr ("ok"))]) =
      Except.ok (Json.jstr ("ok")) :=
  (c1_hf_text_only_decode ("ok") ("") []).2.1 (by decide)

/-! ## Claim C3: repair of truncated function-call arguments -/

/-- Claim C3, counterexample: on the input
`\x7b"name": "f", "arguments": \x7b"a": \x7b"b": \x7d` — a function-call
envelope whose arguments object is truncated (three opening braces against
one closing) — the Ollama extractor returns arguments
`\x7b"a": \x7b"b": \x7d\x7d`, which is not valid JSON and is not the string
`"\x7b\x7d"` either, refuting the claimed disjunction. -/
theorem c3_repair_cex :
    Ollama.extractFunctionCallsFromText c3Input (plainRequest ("x")) =
      some [⟨"f", c3BadArgs⟩] ∧
    jsonParse c3BadArgs = none ∧
    c3BadArgs ≠ HF.emptyObjStr ∧
    c3Input.data.count lbrace = 3 ∧
    c3Input.data.count rbrace = 1 :=
  ⟨rfl, rfl, by decide, by decide, by decide⟩

/-- Claim C3, amended: the extractors never throw (they are total); for a
captured arguments span, the Ollama extractor emits the re-serialized value
when the brace-appending repair yields parseable JSON and otherwise the
brace-appended span itself, which may remain invalid JSON; the HuggingFace
extractor emits the trimmed span when it is valid JSON and the string
`"\x7b\x7d"` otherwise (captured spans never contain a closing brace). -/
theorem c3_repair_behavior (s : String) (hnb : rbrace ∉ s.data) :
    ((∃ v, jsonParse (Ollama.tryFixIncompleteJSON false s) = some v ∧
        Ollama.ollamaArgsOf s =
          jsonStringifyF (4 * (Ollama.tryFixIncompleteJSON false s).data.length + 16) v) ∨
      (jsonParse (Ollama.tryFixIncompleteJSON false s) = none ∧
        Ollama.ollamaArgsOf s =
          Ollama.tryFixIncompleteJSON true (Ollama.tryFixIncompleteJSON false s))) ∧
    (((jsonParse (jsTrimStr s)).isSome = true ∧ HF.hfArgsOf s = jsTrimStr s) ∨
      (jsonParse (jsTrimStr s) = none ∧ HF.hfArgsOf s = HF.emptyObjStr)) := by
  constructor
  · cases hp : jsonParse (Ollama.tryFixIncompleteJSON false s) with
    | some v =>
      exact Or.inl ⟨v, rfl, by rw [Ollama.ollamaArgsOf, hp]⟩
    | none =>
      exact Or.inr ⟨rfl, by rw [Ollama.ollamaArgsOf, hp]⟩
  · cases hp : jsonParse (jsTrimStr s) with
    | some v =>
      refine Or.inl ⟨by simp [hp], ?_⟩
      rw [HF.hfArgsOf]
      simp [hp]
    | none =>
      refine Or.inr ⟨rfl, ?_⟩
      rw [HF.hfArgsOf]
      have hspan : firstBraceSpan (jsTrimStr s).data = none := by
        refine firstBraceSpan_eq_none ?_
        intro hx
        exact hnb (mem_of_mem_jsTrim hx)
      simp [hp, hspan]

/-- Claim C3, witness: on the span `"abc"` (no braces at all) the HuggingFace
extractor emits the empty-object arguments string. -/
theorem c3_repair_behavior_witness : HF.hfArgsOf ("abc") = HF.emptyObjStr := by
  rcases (c3_repair_behavior ("abc") (by decide)).2 with ⟨h1, _⟩ | ⟨_, h2⟩
  · exact absurd h1 (by decide)
  · exact h2

/-! ## Claim C6: Ollama payload form -/

/-- Claim C6: the Ollama payload uses the messages-array form if and only if
an image is present (truthy convenience field or a content-list image), or
function definitions are present, or a system prompt is present (truthy);
otherwise it uses the flat prompt form with the system prompt, when given,
prepended to the prompt text separated by a blank line. -/
theorem c6_ollama_payload_form (env : Env) (r : AIModelRequest) (config : AIModelConfig)
    (isStream : Bool) (p : OllamaPayload)
    (h : Ollama.createRequestPayload env r config isStream = Except.ok p) :
    (p.messages.isSome = true ↔
      (imgTruthy r.image = true ∨ contentHasImage r.content = true ∨
        fnsPresent r.functions = true ∨ strTruthy r.systemPrompt = true)) ∧
    (p.messages = none →
      p.prompt = some (if strTruthy r.systemPrompt
                       then (r.systemPrompt.getD ("")) ++ "\n\n" ++ r.prompt
                       else r.prompt)) ∧
    (p.messages.isSome = true → p.prompt = none) := by
  rw [Ollama.createRequestPayload] at h
  by_cases hm : Ollama.useMessagesFormat r = true
  · rw [if_pos hm] at h
    cases huc : Ollama.userContent env r with
    | error e => rw [huc] at h; exact absurd h (by simp)
    | ok parts =>
      rw [huc] at h
      have hp : p = ⟨strOr config.model ("llama3"), config.temperature, config.topP, none,
          isStream, some (Ollama.systemMessages r ++ [Ollama.userMessage parts]), none⟩ := by
        rw [Except.ok.injEq] at h
        exact h.symm
      subst hp
      rw [Ollama.useMessagesFormat] at hm
      simp only [Bool.or_eq_true] at hm
      refine ⟨⟨fun _ => ?_, fun _ => rfl⟩, fun hc => by simp at hc, fun _ => rfl⟩
      rcases hm with ((h1 | h1) | h1) | h1
      · exact Or.inl h1
      · exact Or.inr (Or.inl h1)
      · exact Or.inr (Or.inr (Or.inl h1))
      · exact Or.inr (Or.inr (Or.inr h1))
  · rw [if_neg hm] at h
    have hp : p = ⟨strOr config.model ("llama3"), config.temperature, config.topP,
        (match config.maxTokens with
         | some m => if m ≠ 0 then some m else none
         | none => none),
        isStream, none,
        some (if strTruthy r.systemPrompt
              then (r.systemPrompt.getD ("")) ++ "\n\n" ++ r.prompt
              else r.prompt)⟩ := by
      rw [Except.ok.injEq] at h
      exact h.symm
    subst hp
    rw [Ollama.useMessagesFormat] at hm
    simp only [Bool.or_eq_true, not_or, Bool.not_eq_true] at hm
    obtain ⟨⟨⟨h1, h2⟩, h3⟩, h4⟩ := hm
    refine ⟨⟨fun hc => by simp at hc, fun hc => ?_⟩, fun _ => rfl, fun hc => by simp at hc⟩
    rcases hc with hx | hx | hx | hx <;> simp [h1, h2, h3, h4] at hx

/-- Claim C6, witness: a request with only a system prompt produces the
messages form. -/
theorem c6_ollama_payload_form_witness :
    Ollama.createRequestPayload envEmpty rSysW cfgNone false = Except.ok pSysW ∧
    pSysW.messages.isSome = true := by
  refine ⟨rfl, ?_⟩
  exact ((c6_ollama_payload_form envEmpty rSysW cfgNone false pSysW rfl).1).mpr
    (Or.inr (Or.inr (Or.inr (by decide))))

/-! ## Claim C10: `num_predict` dropped on the chat path -/

/-- Claim C10: the Ollama payload carries no `num_predict` on the chat
(messages) path even when `maxTokens` is configured — the field is added only
on the generate-endpoint path (for a truthy `maxTokens`), and is removed
before a chat-endpoint payload is returned. -/
theorem c10_ollama_num_predict (env : Env) (r : AIModelRequest) (config : AIModelConfig)
    (isStream : Bool) (p : OllamaPayload)
    (h : Ollama.createRequestPayload env r config isStream = Except.ok p) :
    (p.messages.isSome = true → p.num_predict = none) ∧
    (p.messages = none → ∀ m, config.maxTokens = some m → m ≠ 0 → p.num_predict = some m) := by
  rw [Ollama.createRequestPayload] at h
  by_cases hm : Ollama.useMessagesFormat r = true
  · rw [if_pos hm] at h
    cases huc : Ollama.userContent env r with
    | error e => rw [huc] at h; exact absurd h (by simp)
    | ok parts =>
      rw [huc] at h
      have hp : p = ⟨strOr config.model ("llama3"), config.temperature, config.topP, none,
          isStream, some (Ollama.systemMessages r ++ [Ollama.userMessage parts]), none⟩ := by
        rw [Except.ok.injEq] at h
        exact h.symm
      subst hp
      exact ⟨fun _ => rfl, fun hc => by simp at hc⟩
  · rw [if_neg hm] at h
    have hp : p = ⟨strOr config.model ("llama3"), config.temperature, config.topP,
        (match config.maxTokens with
         | some m => if m ≠ 0 then some m else none
         | none => none),
        isStream, none,
        some (if strTruthy r.systemPrompt
              then (r.systemPrompt.getD ("")) ++ "\n\n" ++ r.prompt
              else r.prompt)⟩ := by
      rw [Except.ok.injEq] at h
      exact h.symm
    subst hp
    refine ⟨fun hc => by simp at hc, fun _ m hmt hne => ?_⟩
    simp [hmt, hne]

/-- Claim C10, witness: with `maxTokens = 100` the chat-path payload for a
system-prompt request still has no `num_predict`. -/
theorem c10_ollama_num_predict_witness :
    Ollama.createRequestPayload envEmpty rSysW cfgMaxW false = Except.ok pSysW ∧
    pSysW.num_predict = none := by
  refine ⟨rfl, ?_⟩
  exact (c10_ollama_num_predict envEmpty rSysW cfgMaxW false pSysW rfl).1 (by decide)

/-! ## Claim C8: image source resolution -/

/-- Claim C8: the image resolver classifies its input in priority order — a
raw binary buffer is base64-encoded directly; otherwise a string that parses
as an absolute `http:`/`https:` URL is fetched and its bytes base64-encoded;
otherwise a string naming an existing regular file is read and base64-encoded;
any other input fails with the input-validation error, and fetch or read
failures are wrapped in an error including the original message. -/
theorem c8_image_resolution (env : Env) (bytes : List Nat) (s : String) :
    imageToBase64 env (ImageSource.buffer bytes) = Except.ok (base64Encode bytes) ∧
    processImage env (ImageSource.buffer bytes) =
      Except.ok (base64Encode bytes, "image/jpeg") ∧
    (isUrl env s = true →
      (∀ bs, env.fetchImage s = Except.ok bs →
        imageToBase64 env (ImageSource.str s) = Except.ok (base64Encode bs)) ∧
      (∀ m, env.fetchImage s = Except.error m →
        imageToBase64 env (ImageSource.str s) =
          Except.error ("Failed to fetch image from URL: " ++ m))) ∧
    (isUrl env s = false → isFilePath env s = true →
      (∀ bs, env.readFile s = Except.ok bs →
        imageToBase64 env (ImageSource.str s) = Except.ok (base64Encode bs)) ∧
      (∀ m, env.readFile s = Except.error m →
        imageToBase64 env (ImageSource.str s) =
          Except.error ("Failed to read image file: " ++ m))) ∧
    (isUrl env s = false → isFilePath env s = false →
      imageToBase64 env (ImageSource.str s) =
        Except.error ("Invalid image source. Must be URL, file path, or Buffer")) := by
  refine ⟨rfl, rfl, ?_, ?_, ?_⟩
  · intro hu
    exact ⟨fun bs hf => by simp [imageToBase64, hu, hf],
           fun m hf => by simp [imageToBase64, hu, hf]⟩
  · intro hu hfp
    exact ⟨fun bs hf => by simp [imageToBase64, hu, hfp, hf],
           fun m hf => by simp [imageToBase64, hu, hfp, hf]⟩
  · intro hu hfp
    simp [imageToBase64, hu, hfp]

/-- Claim C8, witness: in a concrete environment the URL input is fetched and
encoded, and a string that is neither URL nor file fails with the
input-validation error. -/
theorem c8_image_resolution_witness :
    imageToBase64 env8 (ImageSource.str ("http://h/i.png")) = Except.ok ("TWFu") ∧
    imageToBase64 env8 (ImageSource.str ("zzz")) =
      Except.error ("Invalid image source. Must be URL, file path, or Buffer") := by
  constructor
  · exact ((c8_image_resolution env8 [] ("http://h/i.png")).2.2.1 rfl).1
      [77, 97, 110] rfl
  · exact (c8_image_resolution env8 [] ("zzz")).2.2.2.2 rfl rfl

/-! ## Claim C5: honoring both image channels -/

/-- Resolving a list of buffer-sourced content images in the OpenAI message
builder yields one data-URI part per buffer, in order. -/
theorem oai_contentParts_buffers (env : Env) (bufs : List (List Nat)) :
    OpenAI.contentParts env (bufs.map (fun b => Content.image (ImageSource.buffer b))) =
      Except.ok (bufs.map
        (fun b => OAIPart.oimage (OpenAI.dataURI ("image/jpeg") (base64Encode b)))) := by
  induction bufs with
  | nil => rfl
  | cons b bs ih => simp [OpenAI.contentParts, processImage, imageToBase64, ih]

/-- The nested-format content loop over buffer-sourced images in the
multiple-images mode appends each encoding to the `images` accumulator. -/
theorem nestedFold_buffers (env : Env) (bs : List (List Nat)) (img : Option String)
    (acc : List String) :
    HF.nestedContentFold env true (bs.map (fun b => Content.image (ImageSource.buffer b)))
      (img, some acc) =
      Except.ok (img, some (acc ++ bs.map base64Encode)) := by
  induction bs generalizing acc with
  | nil => simp [HF.nestedContentFold]
  | cons b bs ih =>
    simp only [List.map_cons, HF.nestedContentFold, processImage, imageToBase64,
      Option.getD_some, if_pos]
    rw [ih]
    simp

/-- The image count of a buffer-sourced content list is its length. -/
theorem contentImageCount_buffers (bufs : List (List Nat)) :
    HF.contentImageCount (some (bufs.map (fun b => Content.image (ImageSource.buffer b)))) =
      bufs.length := by
  induction bufs with
  | nil => rfl
  | cons b bs ih =>
    simp only [HF.contentImageCount, List.map_cons, List.filter_cons] at ih ⊢
    simp only [if_pos] at ih ⊢
    simp
    simpa [HF.contentImageCount] using ih

/-- Claim C5, counterexample: for a request carrying both the convenience
image (byte `1`) and one content-list image (byte `2`), the HuggingFace
nested-format payload carries only the content image — the content loop
overwrites `inputs.image`, dropping the convenience image — and the
flat-format payload carries only the convenience image, dropping the content
image; neither payload contains all the images. -/
theorem c5_images_cex :
    HF.generateWithNestedFormatPayload envEmpty rBothImages cfgNone =
      Except.ok ⟨"hi", some ("Ag=="), none, HF.hfParameters cfgNone⟩ ∧
    base64Encode [1] = "AQ==" ∧
    "AQ==" ∉ nestedPayloadImages ⟨"hi", some ("Ag=="), none, HF.hfParameters cfgNone⟩ ∧
    HF.generateWithFlatFormatPayload envEmpty rBothImages cfgNone =
      Except.ok ⟨"hi", some ("AQ=="), HF.hfParameters cfgNone⟩ ∧
    base64Encode [2] = "Ag==" ∧
    "Ag==" ∉ flatPayloadImages ⟨"hi", some ("AQ=="), HF.hfParameters cfgNone⟩ := by
  refine ⟨rfl, rfl, by decide, rfl, rfl, by decide⟩

/-- Claim C5, amended: the OpenAI adapter honors both channels — its payload
carries the content-list images in order followed by the convenience image,
none dropped; the HuggingFace nested format instead keeps only the single
content image when exactly one is present (overwriting the convenience
image), and with two or more content images keeps the convenience image in
`inputs.image` and the content images in `inputs.images`; the HuggingFace
flat format keeps only the convenience image whenever it is present. -/
theorem c5_images_concatenation (env : Env) (p : String) (bufs : List (List Nat))
    (conv b1 b2 : List Nat) (config : AIModelConfig) :
    OpenAI.formatMessages env (reqWithImages p bufs conv) =
      Except.ok [⟨"user", OAIContent.cparts
        ((if p ≠ "" then [OAIPart.otext p] else []) ++
          (bufs.map (fun b => OAIPart.oimage (OpenAI.dataURI ("image/jpeg") (base64Encode b))) ++
            [OAIPart.oimage (OpenAI.dataURI ("image/jpeg") (base64Encode conv))]))⟩] ∧
    HF.generateWithFlatFormatPayload env (reqWithImages p bufs conv) config =
      Except.ok ⟨HF.enhancedPrompt (reqWithImages p bufs conv), some (base64Encode conv),
                 HF.hfParameters config⟩ ∧
    HF.generateWithNestedFormatPayload env (reqWithImages p [b1] conv) config =
      Except.ok ⟨HF.enhancedPrompt (reqWithImages p [b1] conv), some (base64Encode b1), none,
                 HF.hfParameters config⟩ ∧
    HF.generateWithNestedFormatPayload env (reqWithImages p (b1 :: b2 :: bufs) conv) config =
      Except.ok ⟨HF.enhancedPrompt (reqWithImages p (b1 :: b2 :: bufs) conv),
                 some (base64Encode conv),
                 some ((b1 :: b2 :: bufs).map base64Encode), HF.hfParameters config⟩ := by
  refine ⟨?_, ?_, ?_, ?_⟩
  · rw [OpenAI.formatMessages]
    simp [reqWithImages, plainRequest, strTruthy, imgTruthy, imgSrcTruthy,
          oai_contentParts_buffers, processImage, imageToBase64, List.append_assoc]
  · rw [HF.generateWithFlatFormatPayload]
    simp [reqWithImages, plainRequest, imgTruthy, imgSrcTruthy, processImage, imageToBase64]
  · rw [HF.generateWithNestedFormatPayload]
    simp [reqWithImages, plainRequest, imgTruthy, imgSrcTruthy, processImage, imageToBase64,
          HF.contentImageCount, HF.nestedContentFold]
  · rw [HF.generateWithNestedFormatPayload]
    have hc : HF.contentImageCount
        (some ((b1 :: b2 :: bufs).map (fun b => Content.image (ImageSource.buffer b)))) =
        bufs.length + 2 := by
      rw [contentImageCount_buffers]
      simp
    have hm : decide (1 < HF.contentImageCount
        (some ((b1 :: b2 :: bufs).map (fun b => Content.image (ImageSource.buffer b))))) =
        true := by
      rw [hc]
      simp
    simp only [reqWithImages, plainRequest, imgTruthy, imgSrcTruthy, processImage,
      imageToBase64, hm, if_pos]
    rw [show ((b1 :: b2 :: bufs).map (fun b => Content.image (ImageSource.buffer b))) =
          ((b1 :: b2 :: bufs).map (fun b => Content.image (ImageSource.buffer b))) from rfl]
    rw [nestedFold_buffers env (b1 :: b2 :: bufs) (some (base64Encode conv)) []]
    simp

/-! ## Claim C9: synthetic streaming of the HuggingFace adapter -/

/-- With adequate fuel the chunk loop concatenates back to the input. -/
theorem chunkListAux_join (f : Nat) :
    ∀ l : List Char, l.length ≤ f →
      (HF.chunkListAux f l).foldr (· ++ ·) [] = l := by
  induction f with
  | zero =>
    intro l h
    have : l = [] := List.length_eq_zero.mp (Nat.le_zero.mp h)
    subst this
    rfl
  | succ f ih =>
    intro l h
    cases l with
    | nil => rfl
    | cons c cs =>
      have hd : ((c :: cs).drop 10).length ≤ f := by
        rw [List.length_drop]
        simp only [List.length_cons] at h ⊢
        omega
      simp only [HF.chunkListAux, List.foldr_cons]
      rw [ih _ hd]
      exact List.take_append_drop 10 (c :: cs)

/-- With adequate fuel the `i`-th chunk is the `i`-th 10-character slice. -/
theorem chunkListAux_get (i : Nat) :
    ∀ (f : Nat) (l : List Char), l.length ≤ f →
      (HF.chunkListAux f l).get? i =
        if 10 * i < l.length then some ((l.drop (10 * i)).take 10) else none := by
  induction i with
  | zero =>
    intro f l h
    cases l with
    | nil =>
      cases f <;> simp [HF.chunkListAux]
    | cons c cs =>
      cases f with
      | zero => simp at h
      | succ f => simp [HF.chunkListAux]
  | succ i ih =>
    intro f l h
    cases l with
    | nil =>
      cases f <;> simp [HF.chunkListAux]
    | cons c cs =>
      cases f with
      | zero => simp at h
      | succ f =>
        have hd : ((c :: cs).drop 10).length ≤ f := by
          rw [List.length_drop]
          simp only [List.length_cons] at h ⊢
          omega
        simp only [HF.chunkListAux, List.get?_cons_succ]
        rw [ih f _ hd]
        rw [List.drop_drop]
        have hiff : (10 * i < ((c :: cs).drop 10).length) ↔
            (10 * (i + 1) < (c :: cs).length) := by
          rw [List.length_drop]
          omega
        by_cases hc : 10 * (i + 1) < (c :: cs).length
        · rw [if_pos (hiff.mpr hc), if_pos hc]
          have harith : 10 + 10 * i = 10 * (i + 1) := by omega
          rw [harith]
        · rw [if_neg (fun hx => hc (hiff.mp hx)), if_neg hc]

/-- Chunks map back through `String.mk` to a concatenation of the data. -/
theorem strJoin_map_mk (L : List (List Char)) :
    strJoin (L.map String.mk) = String.mk (L.foldr (· ++ ·) []) := by
  have key : ∀ M : List (List Char),
      (M.map String.mk).foldr (fun s acc => s.data ++ acc) ([] : List Char) =
        M.foldr (· ++ ·) [] := by
    intro M
    induction M with
    | nil => rfl
    | cons a M ih => simp only [List.map_cons, List.foldr_cons, ih]
  rw [strJoin, key]

/-- Claim C9: the chunks produced by the HuggingFace `stream` are the
consecutive fixed-size 10-character slices of the text of the one
non-streaming `generate` call (the last slice possibly shorter), so their
concatenation equals that text exactly. -/
theorem c9_hf_stream_chunks (t : String) :
    strJoin (HF.streamChunks t) = t ∧
    ∀ i : Nat, (HF.streamChunks t).get? i =
      if 10 * i < t.data.length
      then some (String.mk ((t.data.drop (10 * i)).take 10))
      else none := by
  constructor
  · rw [HF.streamChunks, strJoin_map_mk, chunkListAux_join t.data.length t.data (Nat.le_refl _)]
  · intro i
    rw [HF.streamChunks, List.get?_map,
      chunkListAux_get i t.data.length t.data (Nat.le_refl _)]
    by_cases hc : 10 * i < t.data.length
    · rw [if_pos hc, if_pos hc]
      rfl
    · rw [if_neg hc, if_neg hc]
      rfl
